import Mathlib

/-!
# WebSocket client opening handshake (`client.go`)

A shallow embedding of `Open` and `validateServerHeaders` from `client.go`,
together with the library routines they call (`strings.ToLower`,
`encoding/base64`, SHA-1, the canonical form of header keys, `url.Parse` up
to the scheme with its handling of the fragment and of errors, the wire
format of a request). Calls whose result depends on the network or on the
rest of the library are outcomes supplied by a `World`.

Go strings are byte sequences; they are embedded as lists of natural numbers,
each element standing for one byte.
-/

namespace Wsocket

/-- Equality of results is decidable when it is so for errors and values. -/
instance instDecidableEqExcept {ε α : Type} [DecidableEq ε] [DecidableEq α] :
    DecidableEq (Except ε α)
  | .ok a, .ok b =>
    if h : a = b then isTrue (h ▸ rfl) else isFalse (fun h2 => h (Except.ok.inj h2))
  | .error a, .error b =>
    if h : a = b then isTrue (h ▸ rfl) else isFalse (fun h2 => h (Except.error.inj h2))
  | .ok _, .error _ => isFalse (fun h => Except.noConfusion h)
  | .error _, .ok _ => isFalse (fun h => Except.noConfusion h)

/-! ## Strings -/

/-- Go string: a sequence of bytes. -/
abbrev GoString := List Nat

/-- Bytes of an ASCII literal (every literal of `client.go` is ASCII, so the
code point of each character is its byte). -/
def str (s : String) : GoString := s.toList.map Char.toNat

/-- Lower case of an ASCII byte: `c += 'a' - 'A'` for `'A' <= c && c <= 'Z'`,
every other byte is kept. -/
def lowerByte (c : Nat) : Nat := if 65 ≤ c ∧ c ≤ 90 then c + 32 else c

namespace utf8

/-- The rune `utf8.RuneError`, U+FFFD. -/
def RuneError : Nat := 0xFFFD

/-- Go's `utf8.DecodeRuneInString`: the first rune of the bytes and its width;
a byte that does not start a well-formed encoding gives `RuneError` with
width 1. -/
def DecodeRuneInString : List Nat → Nat × Nat
  | [] => (RuneError, 0)
  | s0 :: rest =>
    if s0 < 0x80 then (s0, 1)
    else if s0 < 0xC2 ∨ 0xF4 < s0 then (RuneError, 1)
    else if s0 < 0xE0 then
      match rest with
      | s1 :: _ =>
        if s1 < 0x80 ∨ 0xBF < s1 then (RuneError, 1) else (s0 % 32 * 64 + s1 % 64, 2)
      | _ => (RuneError, 1)
    else if s0 < 0xF0 then
      match rest with
      | s1 :: s2 :: _ =>
        if s1 < (if s0 = 0xE0 then 0xA0 else 0x80) ∨ (if s0 = 0xED then 0x9F else 0xBF) < s1 then
          (RuneError, 1)
        else if s2 < 0x80 ∨ 0xBF < s2 then (RuneError, 1)
        else (s0 % 16 * 4096 + s1 % 64 * 64 + s2 % 64, 3)
      | _ => (RuneError, 1)
    else
      match rest with
      | s1 :: s2 :: s3 :: _ =>
        if s1 < (if s0 = 0xF0 then 0x90 else 0x80) ∨ (if s0 = 0xF4 then 0x8F else 0xBF) < s1 then
          (RuneError, 1)
        else if s2 < 0x80 ∨ 0xBF < s2 then (RuneError, 1)
        else if s3 < 0x80 ∨ 0xBF < s3 then (RuneError, 1)
        else (s0 % 8 * 262144 + s1 % 64 * 4096 + s2 % 64 * 64 + s3 % 64, 4)
      | _ => (RuneError, 1)

/-- Go's `utf8.AppendRune`: the encoding of a rune; surrogates and values
above U+10FFFF are written as `RuneError`. -/
def EncodeRune (r : Nat) : List Nat :=
  if r < 0x80 then [r]
  else if r < 0x800 then [0xC0 + r / 64, 0x80 + r % 64]
  else if 0x10FFFF < r ∨ (0xD800 ≤ r ∧ r ≤ 0xDFFF) then [0xEF, 0xBF, 0xBD]
  else if r < 0x10000 then [0xE0 + r / 4096, 0x80 + r / 64 % 64, 0x80 + r % 64]
  else [0xF0 + r / 262144, 0x80 + r / 4096 % 64, 0x80 + r / 64 % 64, 0x80 + r % 64]

end utf8

/-- Go's `unicode.ToLower`. ASCII capitals are mapped to their small letters.
Of the other runes, the case tables map exactly two to an ASCII letter:
U+0130 to `i` and U+212A (the Kelvin sign) to `k`; these are embedded. The
lower case of every other rune outside ASCII is again outside ASCII and is
represented by the rune itself: `client.go` only compares lower-cased text
with ASCII constants, and that comparison does not depend on which rune
outside ASCII it is. -/
def unicode.ToLower (r : Nat) : Nat :=
  if r < 0x80 then lowerByte r
  else if r = 0x130 then 0x69
  else if r = 0x212A then 0x6B
  else r

/-- Go's `strings.Map(unicode.ToLower, s)`: the encodings of the lower-cased
runes of `s`, one after the other. `skip` counts the bytes of the current rune
still to pass over. -/
def strings.mapToLower : List Nat → Nat → List Nat
  | [], _ => []
  | _ :: rest, skip + 1 => strings.mapToLower rest skip
  | c :: rest, 0 =>
    utf8.EncodeRune (unicode.ToLower (utf8.DecodeRuneInString (c :: rest)).1)
      ++ strings.mapToLower rest ((utf8.DecodeRuneInString (c :: rest)).2 - 1)

/-- Go's `strings.ToLower`: byte-wise on ASCII text, rune by rune
otherwise. -/
def ToLower (s : GoString) : GoString :=
  if s.all (fun c => c < 0x80) then s.map lowerByte else strings.mapToLower s 0

/-! ## SHA-1 (`crypto/sha1`) on 32-bit words kept as naturals -/

namespace sha1

/-- Addition of 32-bit words. -/
def add32 (x y : Nat) : Nat := (x + y) % 2 ^ 32

/-- Left rotation of a 32-bit word. -/
def rotl (n x : Nat) : Nat := ((x <<< n) % 2 ^ 32) ||| (x >>> (32 - n))

/-- Bitwise complement of a 32-bit word. -/
def not32 (x : Nat) : Nat := 2 ^ 32 - 1 - x % 2 ^ 32

/-- Big-endian bytes of a value, `n` of them. -/
def beBytes : Nat → Nat → List Nat
  | 0, _ => []
  | n + 1, v => (v / 256 ^ n) % 256 :: beBytes n v

/-- Message padding: `0x80`, zeros up to 56 mod 64, then the bit length in
eight big-endian bytes. -/
def pad (m : List Nat) : List Nat :=
  m ++ 128 :: List.replicate ((119 - m.length % 64) % 64) 0 ++ beBytes 8 (m.length * 8)

/-- Big-endian 32-bit words of a byte list (groups of four). -/
def toWords : List Nat → List Nat
  | a :: b :: c :: d :: rest => (a * 2 ^ 24 + b * 2 ^ 16 + c * 2 ^ 8 + d) :: toWords rest
  | _ => []

/-- Message schedule: extends the sixteen block words by `k` more, each
`rotl 1 (w[t-3] xor w[t-8] xor w[t-14] xor w[t-16])`. -/
def schedule : Nat → List Nat → List Nat
  | 0, w => w
  | k + 1, w =>
    let t := w.length
    schedule k (w ++ [rotl 1
      (w.getD (t - 3) 0 ^^^ w.getD (t - 8) 0 ^^^ w.getD (t - 14) 0 ^^^ w.getD (t - 16) 0)])

/-- Chaining state of the compression function. -/
structure State where
  a : Nat
  b : Nat
  c : Nat
  d : Nat
  e : Nat
deriving DecidableEq, Repr

/-- Initial chaining value. -/
def init : State := ⟨0x67452301, 0xEFCDAB89, 0x98BADCFE, 0x10325476, 0xC3D2E1F0⟩

/-- Round function and constant of round `t`. -/
def fk (t b c d : Nat) : Nat × Nat :=
  if t < 20 then ((b &&& c) ||| (not32 b &&& d), 0x5A827999)
  else if t < 40 then (b ^^^ c ^^^ d, 0x6ED9EBA1)
  else if t < 60 then ((b &&& c) ||| (b &&& d) ||| (c &&& d), 0x8F1BBCDC)
  else (b ^^^ c ^^^ d, 0xCA62C1D6)

/-- One round. -/
def round (s : State) (t w : Nat) : State :=
  let p := fk t s.b s.c s.d
  ⟨add32 (add32 (add32 (add32 (rotl 5 s.a) p.1) s.e) p.2) w, s.a, rotl 30 s.b, s.c, s.d⟩

/-- The eighty rounds over the scheduled words, starting at round `t`. -/
def rounds : List Nat → Nat → State → State
  | [], _, s => s
  | w :: ws, t, s => rounds ws (t + 1) (round s t w)

/-- Compression of one 64-byte block into the chaining state. -/
def block (h : State) (blk : List Nat) : State :=
  let s := rounds (schedule 64 (toWords blk)) 0 h
  ⟨add32 h.a s.a, add32 h.b s.b, add32 h.c s.c, add32 h.d s.d, add32 h.e s.e⟩

/-- Compression of `n` consecutive blocks. -/
def blocks : Nat → State → List Nat → State
  | 0, h, _ => h
  | n + 1, h, m => blocks n (block h (m.take 64)) (m.drop 64)

/-- `sha1.Sum`: the 20-byte digest of a message. -/
def sum (m : List Nat) : List Nat :=
  let p := pad m
  let h := blocks (p.length / 64) init p
  beBytes 4 h.a ++ beBytes 4 h.b ++ beBytes 4 h.c ++ beBytes 4 h.d ++ beBytes 4 h.e

end sha1

/-! ## Standard base64 (`encoding/base64`, `StdEncoding`) -/

namespace base64

/-- Errors of the decoder: `CorruptInputError` with the offending offset. -/
abbrev CorruptInputError := Nat

/-- Standard alphabet, `encodeStd`. -/
def encodeStd : GoString :=
  str "ABCDEFGHIJKLMNOPQRSTUVWXYZabcdefghijklmnopqrstuvwxyz0123456789+/"

/-- Padding character, `StdPadding`. -/
def padChar : Nat := 61

/-- Character of a 6-bit value, `enc.encode[v & 0x3F]`. -/
def encode (v : Nat) : Nat := encodeStd.getD (v % 64) 0

/-- Table `enc.decodeMap`: the 6-bit value of an alphabet byte, `0xff` for
every other byte. -/
def decodeMap (c : Nat) : Nat :=
  if encodeStd.indexOf c < 64 then encodeStd.indexOf c else 255

/-- `EncodeToString` of `StdEncoding`: three bytes give four characters, a
remainder of one or two bytes is padded with `=`. -/
def EncodeToString : List Nat → GoString
  | [] => []
  | [a] =>
    let val := a * 2 ^ 16
    [encode (val / 2 ^ 18), encode (val / 2 ^ 12), padChar, padChar]
  | [a, b] =>
    let val := a * 2 ^ 16 + b * 2 ^ 8
    [encode (val / 2 ^ 18), encode (val / 2 ^ 12), encode (val / 2 ^ 6), padChar]
  | a :: b :: c :: rest =>
    let val := a * 2 ^ 16 + b * 2 ^ 8 + c
    encode (val / 2 ^ 18) :: encode (val / 2 ^ 12) :: encode (val / 2 ^ 6) :: encode val
      :: EncodeToString rest

/-- Value assembled from the 6-bit digits of a quantum,
`dbuf[0]<<18 | dbuf[1]<<12 | dbuf[2]<<6 | dbuf[3]` (missing digits are zero). -/
def quantumVal (dbuf : List Nat) : Nat :=
  dbuf.getD 0 0 * 2 ^ 18 + dbuf.getD 1 0 * 2 ^ 12 + dbuf.getD 2 0 * 2 ^ 6 + dbuf.getD 3 0

/-- Bytes a quantum of `dlen` digits yields: `dlen - 1` of the three bytes of
the assembled value (non-strict decoding: the unused low bits are dropped). -/
def quantumBytes (dbuf : List Nat) : List Nat :=
  let val := quantumVal dbuf
  [val / 2 ^ 16 % 256, val / 2 ^ 8 % 256, val % 256].take (dbuf.length - 1)

/-- Skips `\r` and `\n`, counting the bytes skipped: the loops
`for si < len(src) && (src[si] == '\n' || src[si] == '\r') { si++ }`. -/
def skipNewlines : List Nat → Nat → List Nat × Nat
  | [], si => ([], si)
  | c :: rest, si => if c = 10 ∨ c = 13 then skipNewlines rest (si + 1) else (c :: rest, si)

/-- Handling of a padding character met at digit `j` of a quantum (`rest` is
the input after it, `si` the offset of `rest`, `len` the input length). -/
def decodePadding (rest : List Nat) (si len : Nat) (dbuf out : List Nat) :
    Except CorruptInputError (List Nat) :=
  match dbuf.length with
  | 0 => .error (si - 1)
  | 1 => .error (si - 1)
  | 2 =>
    match skipNewlines rest si with
    | ([], _) => .error len
    | (c :: rest2, si2) =>
      if c ≠ padChar then .error (si2 - 1)
      else
        match skipNewlines rest2 (si2 + 1) with
        | ([], _) => .ok (out ++ quantumBytes dbuf)
        | (_ :: _, si3) => .error si3
  | _ =>
    match skipNewlines rest si with
    | ([], _) => .ok (out ++ quantumBytes dbuf)
    | (_ :: _, si3) => .error si3

/-- Decoding loop of `Decode`/`decodeQuantum` over the remaining input:
`si` is the offset of the remaining input, `dbuf` the digits of the quantum
being read, `out` the bytes decoded so far. -/
def decodeLoop : List Nat → Nat → Nat → List Nat → List Nat →
    Except CorruptInputError (List Nat)
  | [], si, _, dbuf, out =>
    if dbuf.length = 0 then .ok out else .error (si - dbuf.length)
  | c :: rest, si, len, dbuf, out =>
    if decodeMap c ≠ 255 then
      if dbuf.length = 3 then
        decodeLoop rest (si + 1) len [] (out ++ quantumBytes (dbuf ++ [decodeMap c]))
      else decodeLoop rest (si + 1) len (dbuf ++ [decodeMap c]) out
    else if c = 10 ∨ c = 13 then decodeLoop rest (si + 1) len dbuf out
    else if c ≠ padChar then .error si
    else decodePadding rest (si + 1) len dbuf out

/-- `DecodeString` of `StdEncoding`. -/
def DecodeString (s : GoString) : Except CorruptInputError (List Nat) :=
  decodeLoop s 0 s.length [] []

end base64

/-! ## HTTP headers (`net/http`, `net/textproto`) -/

/-- Bytes allowed in a header field name (`validHeaderFieldByte`: the token
characters of RFC 7230). -/
def validHeaderFieldByte (c : Nat) : Bool :=
  (48 ≤ c ∧ c ≤ 57) ∨ (65 ≤ c ∧ c ≤ 90) ∨ (97 ≤ c ∧ c ≤ 122) ∨
    c ∈ [33, 35, 36, 37, 38, 39, 42, 43, 45, 46, 94, 95, 96, 124, 126]

/-- Canonicalisation loop of `canonicalMIMEHeaderKey`: the first letter and
every letter after a hyphen upper case, the others lower case. -/
def canonicalLoop : List Nat → Bool → List Nat
  | [], _ => []
  | c :: rest, upper =>
    let c1 := if upper ∧ 97 ≤ c ∧ c ≤ 122 then c - 32
      else if ¬ upper ∧ 65 ≤ c ∧ c ≤ 90 then c + 32 else c
    c1 :: canonicalLoop rest (c1 = 45)

/-- Go's `textproto.CanonicalMIMEHeaderKey`: a key holding a byte that is no
token character is returned unchanged. -/
def CanonicalMIMEHeaderKey (s : GoString) : GoString :=
  if s.all validHeaderFieldByte then canonicalLoop s true else s

/-- Go's `http.Header`: canonical keys with their lists of values. -/
abbrev Header := List (GoString × List GoString)

/-- Go's `Header.Get`: the first value stored under the canonical form of
`key`, the empty string when there is none. -/
def Header.Get (h : Header) (key : GoString) : GoString :=
  match h.lookup (CanonicalMIMEHeaderKey key) with
  | some (v :: _) => v
  | _ => []

/-- Go's `Header.Set`: replaces the values stored under the canonical form of
`key` by the single value `value`. -/
def Header.Set (h : Header) (key value : GoString) : Header :=
  (CanonicalMIMEHeaderKey key, [value]) ::
    h.filter (fun kv => kv.1 ≠ CanonicalMIMEHeaderKey key)

/-! ## Errors -/

/-- Error of a library call, identified by its message. -/
abbrev LibError := GoString

/-- Go's `url.Error`, the error value `url.Parse` returns: the operation, the
URL text the error is about, as it was given, and the underlying error. -/
structure url.Error where
  Op : GoString
  URL : GoString
  Err : LibError
deriving DecidableEq, Repr

/-- Go `error` values that `Open` and `validateServerHeaders` can return. -/
inductive Error where
  /-- Handshake error value `internal.ErrUpgradeMismatch`. -/
  | UpgradeMismatch
  /-- Handshake error value `internal.ErrConnectionMismatch`. -/
  | ConnectionMismatch
  /-- Handshake error value `internal.ErrSecWebSocketKeyMismatch`. -/
  | SecWebSocketKeyMismatch
  /-- Decoder error `base64.CorruptInputError` with its offset. -/
  | CorruptInput (offset : Nat)
  /-- Error created in `client.go` by `errors.New` or `fmt.Errorf`, with its
  message. -/
  | New (msg : GoString)
  /-- Error returned by `url.Parse`, a `*url.Error`. -/
  | url (e : url.Error)
  /-- Error returned by another library call (`http.NewRequest`,
  `uuid.GenerateV4`, `Dial`, `DumpRequestOut`, `Write`, `ReadResponse`). -/
  | lib (e : LibError)
deriving DecidableEq, Repr

/-! ## Package `internal` -/

namespace internal

/-- Modelled from the spec: the constant `internal.UpgradeHeader`, missing
from the sources; the value the `Upgrade` header is compared with and sent
as, `websocket`. -/
def UpgradeHeader : GoString := str "websocket"

/-- Modelled from the spec: the constant `internal.ConnectionHeader`, missing
from the sources; the value the lower-cased `Connection` header must equal,
`upgrade`. The same constant is the value `Open` sends; `OpenWith` and
`validateServerHeadersWith` below take it as a parameter. -/
def ConnectionHeader : GoString := str "upgrade"

/-- Modelled from the spec: the constant `internal.SecWebSocketVersionHeader`,
missing from the sources, `13`. -/
def SecWebSocketVersionHeader : GoString := str "13"

/-- Modelled from the spec: the error value `internal.ErrUpgradeMismatch`,
missing from the sources. -/
def ErrUpgradeMismatch : Error := Error.UpgradeMismatch

/-- Modelled from the spec: the error value `internal.ErrConnectionMismatch`,
missing from the sources. -/
def ErrConnectionMismatch : Error := Error.ConnectionMismatch

/-- Modelled from the spec: the error value
`internal.ErrSecWebSocketKeyMismatch`, missing from the sources. -/
def ErrSecWebSocketKeyMismatch : Error := Error.SecWebSocketKeyMismatch

/-- Modelled from the spec: the fixed protocol GUID that `internal.ConcatKey`
appends to the key, `258EAFA5-E914-47DA-95CA-C5AB0DC85B11`. -/
def GUID : GoString := str "258EAFA5-E914-47DA-95CA-C5AB0DC85B11"

/-- Modelled from the spec: the function `internal.ConcatKey`, missing from
the sources: the SHA-1 digest of the bytes of the key followed by the protocol
GUID. The key is hashed as given, and the 20 raw digest bytes are returned:
`validateServerHeaders` compares them with the base64-decoded accept value. -/
def ConcatKey (encKey : GoString) : Except Error (List Nat) :=
  .ok (sha1.sum (encKey ++ GUID))

end internal

/-! ## `validateServerHeaders` -/

/-- Embeds `validateServerHeaders` (`client.go`, lines 79-99) with the value
of the constant `internal.ConnectionHeader`, which the sources do not contain,
as the parameter `connectionHeader`; `none` is the `nil` error. -/
def validateServerHeadersWith (connectionHeader : GoString) (hdr : Header)
    (encKey : GoString) : Option Error :=
  if ToLower (hdr.Get (str "Upgrade")) ≠ internal.UpgradeHeader then
    some internal.ErrUpgradeMismatch
  else if ToLower (hdr.Get (str "Connection")) ≠ connectionHeader then
    some internal.ErrConnectionMismatch
  else
    match internal.ConcatKey encKey with
    | .error err => some err
    | .ok key =>
      let srvKey := hdr.Get (str "Sec-WebSocket-Accept")
      match base64.DecodeString srvKey with
      | .error off => some (Error.CorruptInput off)
      | .ok dec =>
        if key ≠ dec then some internal.ErrSecWebSocketKeyMismatch else none

/-- Embeds `validateServerHeaders` (`client.go`, lines 79-99) with the
constant `internal.ConnectionHeader` as modelled in package `internal`. -/
def validateServerHeaders (hdr : Header) (encKey : GoString) : Option Error :=
  validateServerHeadersWith internal.ConnectionHeader hdr encKey

/-! ## URLs (`net/url`) -/

namespace url

/-- Go's `url.URL` as far as `Open` uses it: the scheme, the host that is
dialled, `rest`, the text `String` writes between the colon of the scheme and
the fragment (it is built from the fields other than these two), and the
fragment in the form `String` writes it, empty when there is none. -/
structure URL where
  Scheme : GoString
  Host : GoString
  rest : GoString
  Fragment : GoString
deriving DecidableEq, Repr

/-- Go's `(*URL).String`: the scheme and a colon when there is a scheme, the
text of the other fields, and `#` with the fragment when the fragment is not
empty. -/
def URL.String (u : URL) : GoString :=
  (if u.Scheme ≠ [] then u.Scheme ++ 58 :: u.rest else u.rest) ++
    (if u.Fragment ≠ [] then 35 :: u.Fragment else [])

/-- Go's `stringContainsCTLByte`: a byte below the space or `0x7f`. -/
def stringContainsCTLByte (s : GoString) : Bool := s.any (fun b => b < 32 ∨ b = 127)

/-- Loop of `getScheme`: `i` is the index of the head of the remaining bytes
in `rawURL`. -/
def getSchemeLoop (rawURL : GoString) : List Nat → Nat → Except LibError (GoString × GoString)
  | [], _ => .ok ([], rawURL)
  | c :: cs, i =>
    if (97 ≤ c ∧ c ≤ 122) ∨ (65 ≤ c ∧ c ≤ 90) then getSchemeLoop rawURL cs (i + 1)
    else if (48 ≤ c ∧ c ≤ 57) ∨ c = 43 ∨ c = 45 ∨ c = 46 then
      if i = 0 then .ok ([], rawURL) else getSchemeLoop rawURL cs (i + 1)
    else if c = 58 then
      if i = 0 then .error (str "missing protocol scheme")
      else .ok (rawURL.take i, rawURL.drop (i + 1))
    else .ok ([], rawURL)

/-- Go's `getScheme`: splits `scheme:` off the front when the text before the
first colon is a letter followed by letters, digits, `+`, `-` or `.`; gives
the empty scheme when there is no such front, and fails on a leading colon. -/
def getScheme (rawURL : GoString) : Except LibError (GoString × GoString) :=
  getSchemeLoop rawURL rawURL 0

/-- Go's `parse(rawURL, false)` up to the scheme: a control byte is refused,
the scheme is split off by `getScheme` and lower-cased by `strings.ToLower`.
The remainder of the parsing (query, authority, path) is `parseRest`, which
receives the lower-cased scheme and the text after the colon, and yields the
host and the text form of the fields other than the scheme, or fails. -/
def parse (parseRest : GoString → GoString → Except LibError (GoString × GoString))
    (rawURL : GoString) : Except LibError URL :=
  if stringContainsCTLByte rawURL then .error (str "net/url: invalid control character in URL")
  else
    match getScheme rawURL with
    | .error err => .error err
    | .ok (scheme, rest) =>
      match parseRest (ToLower scheme) rest with
      | .error err => .error err
      | .ok (host, text) => .ok ⟨ToLower scheme, host, text, []⟩

/-- Go's `url.Parse`: the address is cut at the first `#`, the part before it
is parsed by `parse` and a fragment that is not empty is set by
`setFragment`, which yields its text form or fails. A failure is returned as
a `url.Error` with the operation `parse` and the text that was being parsed:
the address without its fragment for a failure of `parse`, the whole address
for a failure of `setFragment`. -/
def Parse (parseRest : GoString → GoString → Except LibError (GoString × GoString))
    (setFragment : GoString → Except LibError GoString)
    (rawURL : GoString) : Except url.Error URL :=
  let u := rawURL.takeWhile (fun b => b ≠ 35)
  let frag := (rawURL.dropWhile (fun b => b ≠ 35)).drop 1
  match parse parseRest u with
  | .error err => .error ⟨str "parse", u, err⟩
  | .ok url =>
    if frag = [] then .ok url
    else
      match setFragment frag with
      | .error err => .error ⟨str "parse", rawURL, err⟩
      | .ok f => .ok { url with Fragment := f }

end url

/-! ## Requests, responses, sockets -/

/-- Go's `http.Request` as far as `Open` builds it. -/
structure Request where
  Method : GoString
  URL : GoString
  Header : Header
deriving DecidableEq, Repr

/-- Go's `http.Response` as far as `Open` reads it. -/
structure Response where
  StatusCode : Int
  Header : Header
deriving DecidableEq, Repr

/-- State of the socket of one call: not yet dialled, open, or closed. -/
inductive SockState where
  | unopened
  | opened
  | closed
deriving DecidableEq, Repr

/-- The socket of one call of `Open` with what happened to it: its state, the
handle the dial returned, the number of `Close` calls and the payloads passed
to `Write`. -/
structure Sock where
  state : SockState
  conn : Option Nat
  closes : Nat
  written : List (List Nat)
deriving DecidableEq, Repr

/-- No socket yet. -/
def Sock.init : Sock := ⟨SockState.unopened, none, 0, []⟩

/-- A successful `d.Dial`, returning the handle `c`. -/
def Sock.dial (s : Sock) (c : Nat) : Sock := { s with state := SockState.opened, conn := some c }

/-- The call `conn.Close()`. -/
def Sock.Close (s : Sock) : Sock := { s with state := SockState.closed, closes := s.closes + 1 }

/-- The call `conn.Write(b)`. -/
def Sock.Write (s : Sock) (b : List Nat) : Sock := { s with written := s.written ++ [b] }

/-- The connection type `WebSocket`: the transport, the open flag and the
close code (unset while open). -/
structure WebSocket where
  conn : Nat
  isOpen : Bool
  closeCode : Option Nat
deriving DecidableEq, Repr

/-- Modelled from the spec: the constructor `newWebSocket`, missing from the
sources: the connection is built from the raw transport and an initial open
state, with no close code. -/
def newWebSocket (conn : Nat) (isOpen : Bool) : WebSocket := ⟨conn, isOpen, none⟩

/-- Outcomes of the library and network calls of one run of `Open`. -/
structure World where
  /-- Remainder of `parse` after the scheme step (see `url.parse`). -/
  parseRest : GoString → GoString → Except LibError (GoString × GoString)
  /-- Go's `setFragment` on a fragment that is not empty: the text form of the
  fragment, or an error. -/
  setFragment : GoString → Except LibError GoString
  /-- Error of `http.NewRequest(method, url, nil)`, if any. -/
  NewRequest : GoString → GoString → Option LibError
  /-- Result of `uuid.GenerateV4(nil)`: the sixteen bytes, or an error. -/
  GenerateV4 : Except LibError (List Nat)
  /-- Result of `d.Dial(network, host)`: the handle of the socket, or an error. -/
  Dial : GoString → GoString → Except LibError Nat
  /-- Result of `httputil.DumpRequestOut(r, true)`. -/
  DumpRequestOut : Request → Except LibError (List Nat)
  /-- Error of `conn.Write(b)`, if any. -/
  Write : Nat → List Nat → Option LibError
  /-- Result of `http.ReadResponse(rd, r)` on the socket. -/
  ReadResponse : Nat → Request → Except LibError Response

/-- What a call of `Open` leaves behind: the two results and the socket. -/
structure Outcome where
  ws : Option WebSocket
  err : Option Error
  sock : Sock
deriving DecidableEq, Repr

/-! ## `Open` -/

/-- Embeds `Open` (`client.go`, lines 20-77) with explicit passing of the
socket state and with the value of the constant `internal.ConnectionHeader`,
which the sources do not contain, as the parameter `connectionHeader`. -/
def OpenWith (connectionHeader : GoString) (w : World) (address : GoString) : Outcome :=
  match url.Parse w.parseRest w.setFragment address with
  | .error err => ⟨none, some (Error.url err), Sock.init⟩
  | .ok uri0 =>
    match (if uri0.Scheme = str "ws" then some (str "http")
      else if uri0.Scheme = str "wss" then some (str "https") else none) with
    | none =>
      ⟨none, some (Error.New (str "websocket: unsupported protocol " ++ uri0.Scheme)),
        Sock.init⟩
    | some scheme =>
      let uri : url.URL := { uri0 with Scheme := scheme }
      match w.NewRequest (str "GET") uri.String with
      | some err => ⟨none, some (Error.lib err), Sock.init⟩
      | none =>
        let r0 : Request := ⟨str "GET", uri.String, []⟩
        let r1 : Request :=
          { r0 with Header := r0.Header.Set (str "Upgrade") internal.UpgradeHeader }
        let r2 : Request :=
          { r1 with Header := r1.Header.Set (str "Connection") connectionHeader }
        let r3 : Request :=
          { r2 with Header :=
              r2.Header.Set (str "Sec-WebSocket-Version") internal.SecWebSocketVersionHeader }
        match w.GenerateV4 with
        | .error err => ⟨none, some (Error.lib err), Sock.init⟩
        | .ok guid =>
          let encKey := base64.EncodeToString guid
          let r : Request := { r3 with Header := r3.Header.Set (str "Sec-WebSocket-Key") encKey }
          match w.Dial (str "tcp") uri.Host with
          | .error err => ⟨none, some (Error.lib err), Sock.init⟩
          | .ok conn =>
            let s := Sock.init.dial conn
            match w.DumpRequestOut r with
            | .error err => ⟨none, some (Error.lib err), s.Close⟩
            | .ok b =>
              match w.Write conn b with
              | some err => ⟨none, some (Error.lib err), (s.Write b).Close⟩
              | none =>
                match w.ReadResponse conn r with
                | .error err => ⟨none, some (Error.lib err), (s.Write b).Close⟩
                | .ok rr =>
                  if rr.StatusCode ≠ 101 then
                    ⟨none,
                      some (Error.New
                        (str "websocket: client did not receive 101 status response")),
                      (s.Write b).Close⟩
                  else
                    match validateServerHeadersWith connectionHeader rr.Header encKey with
                    | some err => ⟨none, some err, (s.Write b).Close⟩
                    | none => ⟨some (newWebSocket conn true), none, s.Write b⟩

/-- Embeds `Open` (`client.go`, lines 20-77) with the constant
`internal.ConnectionHeader` as modelled in package `internal`. -/
def Open (w : World) (address : GoString) : Outcome :=
  OpenWith internal.ConnectionHeader w address

/-! ## A sample world

A server that answers the handshake as the protocol prescribes, reached over
a network on which every call succeeds when the address names a port. -/

/-- Sample remainder of `parse`: for `//authority/path` the authority is
the host; a first path segment with a colon is refused when there is no
scheme; the text form is the input itself. -/
def sampleParseRest (scheme rest : GoString) : Except LibError (GoString × GoString) :=
  if rest.take 2 = str "//" then .ok ((rest.drop 2).takeWhile (fun b => b ≠ 47), rest)
  else if scheme = [] ∧ rest.take 1 ≠ str "/" ∧ 58 ∈ rest.takeWhile (fun b => b ≠ 47) then
    .error (str "first path segment in URL cannot contain colon")
  else .ok ([], rest)

/-- Sample dial: as `net.Dial` does for `tcp`, it refuses a host that names
no port; otherwise it gives the socket with handle 3. -/
def sampleDial (host : GoString) : Except LibError Nat :=
  if 58 ∈ host then .ok 3
  else .error (str "dial tcp: address " ++ host ++ str ": missing port in address")

/-- Response of a conforming server to the request `r`: status 101 with the
accept value derived from the key of the request. -/
def conformingResponse (r : Request) : Response :=
  ⟨101, [(str "Upgrade", [str "websocket"]), (str "Connection", [str "Upgrade"]),
    (str "Sec-Websocket-Accept",
      [base64.EncodeToString
        (sha1.sum (r.Header.Get (str "Sec-WebSocket-Key") ++ internal.GUID))])]⟩

/-- Sample world: the nonce is `the sample nonce`, a host with a port is
reached on the socket with handle 3, every other call succeeds and the server
conforms. -/
def sampleWorld : World where
  parseRest := sampleParseRest
  setFragment := fun frag => .ok frag
  NewRequest := fun _ _ => none
  GenerateV4 := .ok (str "the sample nonce")
  Dial := fun _ host => sampleDial host
  DumpRequestOut := fun r => .ok (r.Method ++ 32 :: r.URL)
  Write := fun _ _ => none
  ReadResponse := fun _ r => .ok (conformingResponse r)

/-- Sample response headers of a server: `Upgrade: websocket`,
`Connection: Upgrade` and the given accept value. -/
def serverHeaders (accept : GoString) : Header :=
  [(str "Upgrade", [str "websocket"]), (str "Connection", [str "Upgrade"]),
    (str "Sec-Websocket-Accept", [accept])]

/-! ## Vocabulary of the statements -/

/-- Two bytes are the same byte or the upper and lower case of one ASCII
letter. -/
def sameLetter (a b : Nat) : Bool :=
  a = b ∨ (65 ≤ a ∧ a ≤ 90 ∧ b = a + 32) ∨ (65 ≤ b ∧ b ≤ 90 ∧ a = b + 32)

/-- Letter-case variant: two texts that agree character by character up to
the case of letters. The capitals of an ASCII letter are its ASCII capital
and, for `k` and `i`, the runes U+212A (bytes `E2 84 AA`) and U+0130 (bytes
`C4 B0`), whose lower case is that letter. -/
def caseVariant : GoString → GoString → Bool
  | [], [] => true
  | 0xE2 :: 0x84 :: 0xAA :: v, 107 :: w => caseVariant v w
  | 0xC4 :: 0xB0 :: v, 105 :: w => caseVariant v w
  | a :: v, b :: w => sameLetter a b && caseVariant v w
  | _, _ => false

/-- Letter-case variant in the plain sense: two texts of the same length that
agree byte by byte up to the case of ASCII letters. -/
def asciiCaseVariant : GoString → GoString → Bool
  | [], [] => true
  | a :: v, b :: w => sameLetter a b && asciiCaseVariant v w
  | _, _ => false

/-- The request `r` of `Open` with its four headers set (lines 34-46): a
`GET` of `rawurl` carrying the key `encKey`, with `connectionHeader` the
value of the constant `internal.ConnectionHeader`. -/
def upgradeRequest (connectionHeader rawurl encKey : GoString) : Request :=
  ⟨str "GET", rawurl,
    Header.Set (Header.Set (Header.Set (Header.Set [] (str "Upgrade") internal.UpgradeHeader)
      (str "Connection") connectionHeader)
      (str "Sec-WebSocket-Version") internal.SecWebSocketVersionHeader)
      (str "Sec-WebSocket-Key") encKey⟩

/-- Scheme of the request URL for an accepted scheme of the address: the
switch of `Open` (lines 25-32). -/
def httpScheme (scheme : GoString) : Option GoString :=
  if scheme = str "ws" then some (str "http")
  else if scheme = str "wss" then some (str "https") else none

/-- The run `Open w address` gets as far as the dial: the address parses to
`uri0` with an accepted scheme translated to `scheme`, the request is created
and the nonce `guid` is generated. -/
def Prepares (w : World) (address : GoString) (uri0 : url.URL) (scheme guid : GoString) : Prop :=
  url.Parse w.parseRest w.setFragment address = .ok uri0 ∧
  httpScheme uri0.Scheme = some scheme ∧
  w.NewRequest (str "GET") (url.URL.String { uri0 with Scheme := scheme }) = none ∧
  w.GenerateV4 = .ok guid

/-- The request `OpenWith connectionHeader` builds on a run that gets as far
as the dial. -/
def requestWith (connectionHeader : GoString) (uri0 : url.URL) (scheme guid : GoString) :
    Request :=
  upgradeRequest connectionHeader (url.URL.String { uri0 with Scheme := scheme })
    (base64.EncodeToString guid)

/-- The request `Open` builds on a run that gets as far as the dial. -/
def requestOf (uri0 : url.URL) (scheme guid : GoString) : Request :=
  requestWith internal.ConnectionHeader uri0 scheme guid

/-- The run `Open w address` dials successfully and gets the socket `conn`. -/
def Dials (w : World) (address : GoString) (conn : Nat) : Prop :=
  ∃ uri0 scheme guid, Prepares w address uri0 scheme guid ∧
    w.Dial (str "tcp") uri0.Host = .ok conn

/-- The run `Open w address` reaches the reading of a response: it gets as
far as the dial, the dial gives the socket `conn`, the request serialises to
`b`, `b` is written and the response `rr` is parsed. -/
def ReadsResponse (w : World) (address : GoString) (uri0 : url.URL) (scheme guid : GoString)
    (conn : Nat) (b : List Nat) (rr : Response) : Prop :=
  Prepares w address uri0 scheme guid ∧
  w.Dial (str "tcp") uri0.Host = .ok conn ∧
  w.DumpRequestOut (requestOf uri0 scheme guid) = .ok b ∧
  w.Write conn b = none ∧
  w.ReadResponse conn (requestOf uri0 scheme guid) = .ok rr

/-- Sample world whose server answers with status 200 and otherwise valid
handshake headers. -/
def rejectingWorld : World :=
  { sampleWorld with
    ReadResponse := fun _ r => .ok ⟨200, (conformingResponse r).Header⟩ }

/-- Order of the header keys on the wire: byte-wise lexicographic. -/
def keyLe : GoString → GoString → Bool
  | [], _ => true
  | _ :: _, [] => false
  | a :: s, b :: t => a < b || (a = b && keyLe s t)

/-- Insertion of a header field into a list of fields sorted by key. -/
def insertByKey (kv : GoString × List GoString) : Header → Header
  | [] => [kv]
  | x :: xs => if keyLe kv.1 x.1 then kv :: x :: xs else x :: insertByKey kv xs

/-- Go's `Header.Write`: the fields sorted by key, one line `Key: value`
closed by `\r\n` for each value. -/
def Header.Write (h : Header) : List Nat :=
  (h.foldr insertByKey []).flatMap
    (fun kv => kv.2.flatMap (fun v => kv.1 ++ str ": " ++ v ++ str "\r\n"))

/-- The bytes `httputil.DumpRequestOut` gives for a request without body that
has no `User-Agent`, `Accept-Encoding` or `Range` field: the request line
with the request URI, the `Host` line, the `User-Agent` line of the library,
the fields of the request, the `Accept-Encoding` line the transport adds, and
an empty line. -/
def wireFormat (requestURI host : GoString) (r : Request) : List Nat :=
  r.Method ++ 32 :: requestURI ++ str " HTTP/1.1\r\n" ++
    str "Host: " ++ host ++ str "\r\n" ++
    str "User-Agent: Go-http-client/1.1\r\n" ++
    Header.Write r.Header ++
    str "Accept-Encoding: gzip\r\n" ++ str "\r\n"

/-- Sample world whose serialisation of a request is its wire format; the
host and the request URI are read off a URL of the form
`scheme://host/path`. -/
def wireWorld : World :=
  { sampleWorld with
    DumpRequestOut := fun r =>
      let afterScheme := (r.URL.dropWhile (fun b => b ≠ 47)).drop 2
      let path := afterScheme.dropWhile (fun b => b ≠ 47)
      .ok (wireFormat (if path = [] then str "/" else path)
        (afterScheme.takeWhile (fun b => b ≠ 47)) r) }

/-- Two strings of the same length that differ in the byte at position `i`
and in no other. -/
def DiffersAt (i : Nat) (a b : GoString) : Prop :=
  a.length = b.length ∧ i < a.length ∧ a.getD i 0 ≠ b.getD i 0 ∧
    ∀ j, j < a.length → j ≠ i → a.getD j 0 = b.getD j 0

instance instDecidableDiffersAt (i : Nat) (a b : GoString) : Decidable (DiffersAt i a b) := by
  unfold DiffersAt
  exact inferInstance

/-- The input of the decoder without the `\r` and `\n` bytes it skips. -/
def base64.strip (s : GoString) : GoString := s.filter (fun c => c ≠ 10 ∧ c ≠ 13)

/-- Shape of the inputs without line breaks that the decoder accepts, with
the bytes they decode to: whole quanta of four alphabet characters, closed by
nothing, by two characters and `==`, or by three characters and `=`. -/
inductive base64.Accepts : GoString → List Nat → Prop where
  | nil : base64.Accepts [] []
  | one (c0 c1 : Nat) : base64.decodeMap c0 ≠ 255 → base64.decodeMap c1 ≠ 255 →
      base64.Accepts [c0, c1, base64.padChar, base64.padChar]
        (base64.quantumBytes [base64.decodeMap c0, base64.decodeMap c1])
  | two (c0 c1 c2 : Nat) : base64.decodeMap c0 ≠ 255 → base64.decodeMap c1 ≠ 255 →
      base64.decodeMap c2 ≠ 255 →
      base64.Accepts [c0, c1, c2, base64.padChar]
        (base64.quantumBytes [base64.decodeMap c0, base64.decodeMap c1, base64.decodeMap c2])
  | full (c0 c1 c2 c3 : Nat) (t : GoString) (bs : List Nat) : base64.decodeMap c0 ≠ 255 →
      base64.decodeMap c1 ≠ 255 → base64.decodeMap c2 ≠ 255 → base64.decodeMap c3 ≠ 255 →
      base64.Accepts t bs →
      base64.Accepts (c0 :: c1 :: c2 :: c3 :: t)
        (base64.quantumBytes [base64.decodeMap c0, base64.decodeMap c1, base64.decodeMap c2,
          base64.decodeMap c3] ++ bs)

/-! # Theorems -/

/-! ## Base64: decoding what was encoded -/

namespace base64

theorem decodeMap_encodeStd : ∀ i, i < 64 → decodeMap (encodeStd.getD i 0) = i := by
  decide

theorem decodeMap_encode (v : Nat) : decodeMap (encode v) = v % 64 :=
  decodeMap_encodeStd (v % 64) (Nat.mod_lt _ (by decide))

theorem decodeMap_encode_ne (v : Nat) : decodeMap (encode v) ≠ 255 := by
  rw [decodeMap_encode]; omega

theorem quantumBytes_full (a b c : Nat) (ha : a < 256) (hb : b < 256) (hc : c < 256) :
    quantumBytes [(a * 2 ^ 16 + b * 2 ^ 8 + c) / 2 ^ 18 % 64, (a * 2 ^ 16 + b * 2 ^ 8 + c) / 2 ^ 12 % 64,
      (a * 2 ^ 16 + b * 2 ^ 8 + c) / 2 ^ 6 % 64, (a * 2 ^ 16 + b * 2 ^ 8 + c) % 64] = [a, b, c] := by
  simp [quantumBytes, quantumVal]
  omega

theorem decodeMap_padChar : decodeMap padChar = 255 := by decide

theorem decodeLoop_digit (c : Nat) (rest : List Nat) (si len : Nat) (dbuf out : List Nat)
    (hc : decodeMap c ≠ 255) (hd : dbuf.length ≠ 3) :
    decodeLoop (c :: rest) si len dbuf out = decodeLoop rest (si + 1) len (dbuf ++ [decodeMap c]) out := by
  simp [decodeLoop, hc, hd]

theorem decodeLoop_last (c : Nat) (rest : List Nat) (si len : Nat) (dbuf out : List Nat)
    (hc : decodeMap c ≠ 255) (hd : dbuf.length = 3) :
    decodeLoop (c :: rest) si len dbuf out
      = decodeLoop rest (si + 1) len [] (out ++ quantumBytes (dbuf ++ [decodeMap c])) := by
  simp [decodeLoop, hc, hd]

theorem decodeLoop_pad (rest : List Nat) (si len : Nat) (dbuf out : List Nat) :
    decodeLoop (padChar :: rest) si len dbuf out = decodePadding rest (si + 1) len dbuf out := by
  simp [decodeLoop, decodeMap_padChar]
  simp [padChar]

theorem decodeLoop_encode (bs : List Nat) : ∀ (si len : Nat) (out : List Nat),
    (∀ b ∈ bs, b < 256) → decodeLoop (EncodeToString bs) si len [] out = .ok (out ++ bs) := by
  induction bs using EncodeToString.induct with
  | case1 => intro si len out _; simp [EncodeToString, decodeLoop]
  | case2 a =>
    intro si len out h
    have ha : a < 256 := h a (by simp)
    simp only [EncodeToString]
    rw [decodeLoop_digit _ _ _ _ _ _ (decodeMap_encode_ne _) (by simp),
      decodeLoop_digit _ _ _ _ _ _ (decodeMap_encode_ne _) (by simp), decodeLoop_pad]
    simp [decodePadding, skipNewlines, decodeMap_encode, quantumBytes, quantumVal, padChar]
    omega
  | case3 a b =>
    intro si len out h
    have ha : a < 256 := h a (by simp)
    have hb : b < 256 := h b (by simp)
    simp only [EncodeToString]
    rw [decodeLoop_digit _ _ _ _ _ _ (decodeMap_encode_ne _) (by simp),
      decodeLoop_digit _ _ _ _ _ _ (decodeMap_encode_ne _) (by simp),
      decodeLoop_digit _ _ _ _ _ _ (decodeMap_encode_ne _) (by simp), decodeLoop_pad]
    simp [decodePadding, skipNewlines, decodeMap_encode, quantumBytes, quantumVal, padChar]
    omega
  | case4 a b c rest ih =>
    intro si len out h
    have ha : a < 256 := h a (by simp)
    have hb : b < 256 := h b (by simp)
    have hc : c < 256 := h c (by simp)
    simp only [EncodeToString]
    rw [decodeLoop_digit _ _ _ _ _ _ (decodeMap_encode_ne _) (by simp),
      decodeLoop_digit _ _ _ _ _ _ (decodeMap_encode_ne _) (by simp),
      decodeLoop_digit _ _ _ _ _ _ (decodeMap_encode_ne _) (by simp),
      decodeLoop_last _ _ _ _ _ _ (decodeMap_encode_ne _) (by simp)]
    simp only [List.nil_append, List.cons_append, decodeMap_encode]
    rw [quantumBytes_full a b c ha hb hc, ih _ _ _ (fun x hx => h x (by simp [hx]))]
    simp

theorem DecodeString_EncodeToString (bs : List Nat) (h : ∀ b ∈ bs, b < 256) :
    DecodeString (EncodeToString bs) = .ok bs := by
  simpa [DecodeString] using decodeLoop_encode bs 0 _ [] h

end base64

/-! ## SHA-1: shape of the digest -/

theorem sha1.beBytes_lt (n v : Nat) : ∀ b ∈ sha1.beBytes n v, b < 256 := by
  induction n with
  | zero => simp [sha1.beBytes]
  | succ n ih =>
    intro b hb
    simp only [sha1.beBytes, List.mem_cons] at hb
    rcases hb with rfl | hb
    · exact Nat.mod_lt _ (by decide)
    · exact ih b hb

theorem sha1.sum_lt (m : List Nat) : ∀ b ∈ sha1.sum m, b < 256 := by
  intro b hb
  simp only [sha1.sum, List.mem_append] at hb
  rcases hb with (((hb | hb) | hb) | hb) | hb <;> exact sha1.beBytes_lt _ _ b hb

theorem sha1.sum_length (m : List Nat) : (sha1.sum m).length = 20 := by
  simp [sha1.sum, sha1.beBytes]

/-! ## The validator accepts the derived key (C1) -/

/-- C1: for every key `K` and every header set whose `Upgrade` value is
`websocket`, whose `Connection` value is `upgrade` and whose
`Sec-WebSocket-Accept` value is the padded standard base64 of the SHA-1 of the
bytes of `K` followed by the protocol GUID, `validateServerHeaders` returns
`nil`. -/
theorem validateServerHeaders_accepts_derived_key (hdr : Header) (K : GoString)
    (hU : hdr.Get (str "Upgrade") = str "websocket")
    (hC : hdr.Get (str "Connection") = str "upgrade")
    (hA : hdr.Get (str "Sec-WebSocket-Accept")
      = base64.EncodeToString (sha1.sum (K ++ str "258EAFA5-E914-47DA-95CA-C5AB0DC85B11"))) :
    validateServerHeaders hdr K = none := by
  have h1 : ToLower (str "websocket") = internal.UpgradeHeader := by decide
  have h2 : ToLower (str "upgrade") = internal.ConnectionHeader := by decide
  simp only [validateServerHeaders, validateServerHeadersWith, hU, hC, hA, h1, h2, internal.ConcatKey, internal.GUID,
    base64.DecodeString_EncodeToString _ (sha1.sum_lt _)]
  simp

set_option maxRecDepth 1000000 in
theorem validateServerHeaders_accepts_derived_key_witness :
    validateServerHeaders
      [(str "Upgrade", [str "websocket"]), (str "Connection", [str "upgrade"]),
        (str "Sec-Websocket-Accept", [str "s3pPLMBiTxaQ9kYGzzhZRbK+xOo="])]
      (str "dGhlIHNhbXBsZSBub25jZQ==") = none :=
  validateServerHeaders_accepts_derived_key _ _ (by decide) (by decide) (by decide)

/-! ## Letter case (C4) and the order of the checks (C10) -/

theorem caseVariant_kelvin (v w : GoString) :
    caseVariant (0xE2 :: 0x84 :: 0xAA :: v) (107 :: w) = caseVariant v w := by
  simp [caseVariant]

theorem caseVariant_dotted (v w : GoString) :
    caseVariant (0xC4 :: 0xB0 :: v) (105 :: w) = caseVariant v w := by
  simp [caseVariant]

theorem caseVariant_cons (a b : Nat) (v w : GoString)
    (h1 : ¬ (a = 0xE2 ∧ b = 107 ∧ ∃ t, v = 0x84 :: 0xAA :: t))
    (h2 : ¬ (a = 0xC4 ∧ b = 105 ∧ ∃ t, v = 0xB0 :: t)) :
    caseVariant (a :: v) (b :: w) = (sameLetter a b && caseVariant v w) := by
  conv_lhs => unfold caseVariant
  split
  · simp_all
  · simp_all
  · simp_all
  · simp_all
  · rename_i hx
    exact (hx _ _ _ _ rfl rfl).elim


theorem utf8.DecodeRune_ge (a : Nat) (v : List Nat) (ha : 0x80 ≤ a) :
    0x80 ≤ (utf8.DecodeRuneInString (a :: v)).1 := by
  simp only [utf8.DecodeRuneInString]
  repeat' split
  all_goals first
    | (simp [utf8.RuneError]; done)
    | omega

theorem utf8.DecodeRune_kelvin (a : Nat) (v : List Nat)
    (h : (utf8.DecodeRuneInString (a :: v)).1 = 0x212A) :
    a = 0xE2 ∧ ∃ t, v = 0x84 :: 0xAA :: t := by
  simp only [utf8.DecodeRuneInString] at h
  repeat' split at h
  all_goals try (simp [utf8.RuneError] at h; done)
  all_goals try (exfalso; omega)
  dsimp only at h
  exact ⟨by omega, _, by simp only [List.cons.injEq]; exact ⟨by omega, by omega, rfl⟩⟩

theorem utf8.DecodeRune_dotted (a : Nat) (v : List Nat)
    (h : (utf8.DecodeRuneInString (a :: v)).1 = 0x130) :
    a = 0xC4 ∧ ∃ t, v = 0xB0 :: t := by
  simp only [utf8.DecodeRuneInString] at h
  repeat' split at h
  all_goals try (simp [utf8.RuneError] at h; done)
  all_goals try (exfalso; omega)
  dsimp only at h
  exact ⟨by omega, _, by simp only [List.cons.injEq]; exact ⟨by omega, rfl⟩⟩

theorem utf8.EncodeRune_head (r : Nat) (hr : 0x80 ≤ r) :
    ∃ h t, utf8.EncodeRune r = h :: t ∧ 0x80 ≤ h := by
  unfold utf8.EncodeRune
  split
  · omega
  · split
    · exact ⟨_, _, rfl, by omega⟩
    · split
      · exact ⟨_, _, rfl, by omega⟩
      · split
        · exact ⟨_, _, rfl, by omega⟩
        · exact ⟨_, _, rfl, by omega⟩

theorem strings.mapToLower_ascii (c : Nat) (rest : List Nat) (hc : c < 0x80) :
    strings.mapToLower (c :: rest) 0 = lowerByte c :: strings.mapToLower rest 0 := by
  have h1 : utf8.DecodeRuneInString (c :: rest) = (c, 1) := by
    simp [utf8.DecodeRuneInString, hc]
  have h2 : unicode.ToLower c = lowerByte c := by simp [unicode.ToLower, hc]
  have h3 : lowerByte c < 0x80 := by unfold lowerByte; split <;> omega
  simp only [strings.mapToLower, h1, h2, utf8.EncodeRune, if_pos h3]
  rfl

theorem strings.mapToLower_all_ascii (s : List Nat) (h : ∀ c ∈ s, c < 0x80) :
    strings.mapToLower s 0 = s.map lowerByte := by
  induction s with
  | nil => rfl
  | cons c s ih =>
    rw [strings.mapToLower_ascii c s (h c (by simp)), ih (fun x hx => h x (by simp [hx]))]
    rfl

theorem ToLower_eq_mapToLower (s : GoString) : ToLower s = strings.mapToLower s 0 := by
  unfold ToLower
  split
  · rename_i h
    rw [strings.mapToLower_all_ascii s (by simpa using h)]
  · rfl

theorem strings.mapToLower_kelvin (v : List Nat) :
    strings.mapToLower (0xE2 :: 0x84 :: 0xAA :: v) 0 = 107 :: strings.mapToLower v 0 := by
  simp [strings.mapToLower, utf8.DecodeRuneInString, unicode.ToLower, utf8.EncodeRune]

theorem strings.mapToLower_dotted (v : List Nat) :
    strings.mapToLower (0xC4 :: 0xB0 :: v) 0 = 105 :: strings.mapToLower v 0 := by
  simp [strings.mapToLower, utf8.DecodeRuneInString, unicode.ToLower, utf8.EncodeRune]

theorem strings.mapToLower_other (a : Nat) (v : List Nat) (ha : 0x80 ≤ a)
    (h1 : ¬ (a = 0xE2 ∧ ∃ t, v = 0x84 :: 0xAA :: t))
    (h2 : ¬ (a = 0xC4 ∧ ∃ t, v = 0xB0 :: t)) :
    ∃ h t, strings.mapToLower (a :: v) 0 = h :: t ∧ 0x80 ≤ h := by
  have hge := utf8.DecodeRune_ge a v ha
  have hk : (utf8.DecodeRuneInString (a :: v)).1 ≠ 0x212A := fun e => h1 (utf8.DecodeRune_kelvin a v e)
  have hd : (utf8.DecodeRuneInString (a :: v)).1 ≠ 0x130 := fun e => h2 (utf8.DecodeRune_dotted a v e)
  have hl : unicode.ToLower (utf8.DecodeRuneInString (a :: v)).1
      = (utf8.DecodeRuneInString (a :: v)).1 := by
    unfold unicode.ToLower
    rw [if_neg (by omega), if_neg hd, if_neg hk]
  obtain ⟨h, t, he, hh⟩ := utf8.EncodeRune_head _ hge
  refine ⟨h, t ++ strings.mapToLower v ((utf8.DecodeRuneInString (a :: v)).2 - 1), ?_, hh⟩
  simp only [strings.mapToLower, hl, he, List.cons_append]

theorem lowerByte_eq_iff (a b : Nat) (hb : ¬ (65 ≤ b ∧ b ≤ 90)) :
    lowerByte a = b ↔ sameLetter a b = true := by
  simp only [lowerByte, sameLetter, decide_eq_true_eq]
  split <;> omega

theorem strings.mapToLower_ne_nil (a : Nat) (v : List Nat) : strings.mapToLower (a :: v) 0 ≠ [] := by
  by_cases ha : a < 0x80
  · rw [strings.mapToLower_ascii a v ha]; simp
  · by_cases hk : a = 0xE2 ∧ ∃ t, v = 0x84 :: 0xAA :: t
    · obtain ⟨rfl, t, rfl⟩ := hk
      rw [strings.mapToLower_kelvin]; simp
    · by_cases hd : a = 0xC4 ∧ ∃ t, v = 0xB0 :: t
      · obtain ⟨rfl, t, rfl⟩ := hd
        rw [strings.mapToLower_dotted]; simp
      · obtain ⟨h, t, he, -⟩ := strings.mapToLower_other a v (by omega) hk hd
        rw [he]; simp

/-- Lower-casing gives a text of small ASCII letters exactly for its
letter-case variants. -/
theorem strings.mapToLower_eq_iff (n : Nat) : ∀ (v w : GoString), v.length = n →
    (∀ b ∈ w, 97 ≤ b ∧ b ≤ 122) →
    (strings.mapToLower v 0 = w ↔ caseVariant v w = true) := by
  induction n using Nat.strong_induction_on with
  | _ n ih =>
    intro v w hn hw
    cases v with
    | nil => cases w <;> simp [strings.mapToLower, caseVariant]
    | cons a v =>
      cases w with
      | nil => simp [strings.mapToLower_ne_nil, caseVariant]
      | cons b w =>
        have hb := hw b (by simp)
        have hw2 : ∀ x ∈ w, 97 ≤ x ∧ x ≤ 122 := fun x hx => hw x (by simp [hx])
        simp only [List.length_cons] at hn
        by_cases hk : a = 0xE2 ∧ ∃ t, v = 0x84 :: 0xAA :: t
        · obtain ⟨rfl, t, rfl⟩ := hk
          rw [strings.mapToLower_kelvin]
          by_cases hb2 : b = 107
          · subst hb2
            rw [caseVariant_kelvin, List.cons.injEq]
            simp only [true_and]
            exact ih t.length (by simp only [List.length_cons] at hn; omega) t w rfl hw2
          · rw [caseVariant_cons _ _ _ _ (by simp [hb2]) (by simp)]
            have hs : sameLetter 226 b = false := by
              simp only [sameLetter, decide_eq_false_iff_not]; omega
            simp [hs, Ne.symm hb2]
        · by_cases hd : a = 0xC4 ∧ ∃ t, v = 0xB0 :: t
          · obtain ⟨rfl, t, rfl⟩ := hd
            rw [strings.mapToLower_dotted]
            by_cases hb2 : b = 105
            · subst hb2
              rw [caseVariant_dotted, List.cons.injEq]
              simp only [true_and]
              exact ih t.length (by simp only [List.length_cons] at hn; omega) t w rfl hw2
            · rw [caseVariant_cons _ _ _ _ (by simp) (by simp [hb2])]
              have hs : sameLetter 196 b = false := by
                simp only [sameLetter, decide_eq_false_iff_not]; omega
              simp [hs, Ne.symm hb2]
          · rw [caseVariant_cons a b v w (fun h => hk ⟨h.1, h.2.2⟩) (fun h => hd ⟨h.1, h.2.2⟩)]
            by_cases ha : a < 0x80
            · rw [strings.mapToLower_ascii a v ha, List.cons.injEq,
                lowerByte_eq_iff a b (by omega), ih v.length (by omega) v w rfl hw2]
              simp
            · obtain ⟨h, t, he, hh⟩ := strings.mapToLower_other a v (by omega) hk hd
              rw [he]
              have hs : sameLetter a b = false := by
                simp only [sameLetter, decide_eq_false_iff_not]; omega
              have hne : h ≠ b := by omega
              simp [hs, hne]

theorem ToLower_eq_iff (v w : GoString) (hw : ∀ b ∈ w, 97 ≤ b ∧ b ≤ 122) :
    ToLower v = w ↔ caseVariant v w = true := by
  rw [ToLower_eq_mapToLower]
  exact strings.mapToLower_eq_iff v.length v w rfl hw

theorem ToLower_eq_UpgradeHeader (v : GoString) :
    ToLower v = internal.UpgradeHeader ↔ caseVariant v (str "websocket") = true :=
  ToLower_eq_iff v (str "websocket") (by decide)

theorem ToLower_eq_ConnectionHeader (v : GoString) :
    ToLower v = internal.ConnectionHeader ↔ caseVariant v (str "upgrade") = true :=
  ToLower_eq_iff v (str "upgrade") (by decide)

/-- No lower-cased text starts with a capital ASCII letter. -/
theorem ToLower_head_not_capital (v : GoString) (c : Nat) (t : GoString) (hc : 65 ≤ c ∧ c ≤ 90) :
    ToLower v ≠ c :: t := by
  rw [ToLower_eq_mapToLower]
  cases v with
  | nil => simp [strings.mapToLower]
  | cons a v =>
    by_cases ha : a < 0x80
    · rw [strings.mapToLower_ascii a v ha]
      intro h
      have h1 : lowerByte a = c := (List.cons.inj h).1
      unfold lowerByte at h1
      split at h1 <;> omega
    · by_cases hk : a = 0xE2 ∧ ∃ t, v = 0x84 :: 0xAA :: t
      · obtain ⟨rfl, t, rfl⟩ := hk
        rw [strings.mapToLower_kelvin]
        intro h
        have h1 := (List.cons.inj h).1
        omega
      · by_cases hd : a = 0xC4 ∧ ∃ t, v = 0xB0 :: t
        · obtain ⟨rfl, t, rfl⟩ := hd
          rw [strings.mapToLower_dotted]
          intro h
          have h1 := (List.cons.inj h).1
          omega
        · obtain ⟨h, t, he, hh⟩ := strings.mapToLower_other a v (by omega) hk hd
          rw [he]
          intro h2
          have h1 := (List.cons.inj h2).1
          omega

/-- The value `Upgrade`, with its capital, is the lower case of no header
value: a `Connection` constant written that way would make the second check of
`validateServerHeaders` fail on every response. -/
theorem ToLower_ne_capitalised_Upgrade (v : GoString) : ToLower v ≠ str "Upgrade" := by
  have h : str "Upgrade" = 85 :: str "pgrade" := by decide
  rw [h]
  exact ToLower_head_not_capital v 85 _ (by omega)

/-- Unfolding of `validateServerHeaders` once the two header checks pass. -/
theorem validateServerHeaders_of_pass (hdr : Header) (K : GoString)
    (hU : ToLower (hdr.Get (str "Upgrade")) = internal.UpgradeHeader)
    (hC : ToLower (hdr.Get (str "Connection")) = internal.ConnectionHeader) :
    validateServerHeaders hdr K =
      match base64.DecodeString (hdr.Get (str "Sec-WebSocket-Accept")) with
      | .error off => some (Error.CorruptInput off)
      | .ok dec =>
        if sha1.sum (K ++ internal.GUID) ≠ dec then some Error.SecWebSocketKeyMismatch else none := by
  simp [validateServerHeaders, validateServerHeadersWith, hU, hC, internal.ConcatKey, internal.ErrSecWebSocketKeyMismatch]

/-- The two header checks of `validateServerHeaders` in terms of the
letter-case variants in the sense of `strings.ToLower`: an `Upgrade` value
that is no variant of `websocket` gives the upgrade-mismatch error; with a
variant, a `Connection` value that is no variant of `upgrade` gives the
connection-mismatch error, and a variant does not. -/
theorem validateServerHeaders_case_variants (hdr : Header) (K : GoString) :
    (caseVariant (hdr.Get (str "Upgrade")) (str "websocket") = false →
      validateServerHeaders hdr K = some internal.ErrUpgradeMismatch) ∧
    (caseVariant (hdr.Get (str "Upgrade")) (str "websocket") = true →
      validateServerHeaders hdr K ≠ some internal.ErrUpgradeMismatch ∧
      (caseVariant (hdr.Get (str "Connection")) (str "upgrade") = false →
        validateServerHeaders hdr K = some internal.ErrConnectionMismatch) ∧
      (caseVariant (hdr.Get (str "Connection")) (str "upgrade") = true →
        validateServerHeaders hdr K ≠ some internal.ErrConnectionMismatch)) := by
  refine ⟨fun hU => ?_, fun hU => ?_⟩
  · have h : ¬ ToLower (hdr.Get (str "Upgrade")) = internal.UpgradeHeader := by
      rw [ToLower_eq_UpgradeHeader]; simp [hU]
    simp [validateServerHeaders, validateServerHeadersWith, h]
  · have h := (ToLower_eq_UpgradeHeader _).2 hU
    by_cases hC : ToLower (hdr.Get (str "Connection")) = internal.ConnectionHeader
    · have hC2 := (ToLower_eq_ConnectionHeader _).1 hC
      rw [validateServerHeaders_of_pass hdr K h hC]
      refine ⟨?_, fun hf => ?_, fun _ => ?_⟩
      · split
        · simp [internal.ErrUpgradeMismatch]
        · split <;> simp [internal.ErrUpgradeMismatch]
      · simp [hC2] at hf
      · split
        · simp [internal.ErrConnectionMismatch]
        · split <;> simp [internal.ErrConnectionMismatch]
    · have hC2 : caseVariant (hdr.Get (str "Connection")) (str "upgrade") = false := by
        rw [ToLower_eq_ConnectionHeader] at hC; simpa using hC
      have hv : validateServerHeaders hdr K = some internal.ErrConnectionMismatch := by
        simp [validateServerHeaders, validateServerHeadersWith, h, hC]
      refine ⟨?_, fun _ => hv, fun hf => ?_⟩
      · rw [hv]; simp [internal.ErrConnectionMismatch, internal.ErrUpgradeMismatch]
      · simp [hC2] at hf

/-- C10: `validateServerHeaders` checks `Upgrade`, then `Connection`, then
the base64 decoding of `Sec-WebSocket-Accept`, then the key, and returns the
error of the first check that fails: upgrade-mismatch whatever the other
headers are; else connection-mismatch whatever the accept value is; else the
decoder's error unchanged; else key-mismatch when the decoded bytes are not
the expected digest; and `nil` exactly when all four checks pass. -/
theorem validateServerHeaders_check_order (hdr : Header) (K : GoString) :
    (caseVariant (hdr.Get (str "Upgrade")) (str "websocket") = false →
      validateServerHeaders hdr K = some internal.ErrUpgradeMismatch) ∧
    (caseVariant (hdr.Get (str "Upgrade")) (str "websocket") = true →
      caseVariant (hdr.Get (str "Connection")) (str "upgrade") = false →
      validateServerHeaders hdr K = some internal.ErrConnectionMismatch) ∧
    (caseVariant (hdr.Get (str "Upgrade")) (str "websocket") = true →
      caseVariant (hdr.Get (str "Connection")) (str "upgrade") = true →
      ∀ off, base64.DecodeString (hdr.Get (str "Sec-WebSocket-Accept")) = .error off →
      validateServerHeaders hdr K = some (Error.CorruptInput off)) ∧
    (caseVariant (hdr.Get (str "Upgrade")) (str "websocket") = true →
      caseVariant (hdr.Get (str "Connection")) (str "upgrade") = true →
      ∀ dec, base64.DecodeString (hdr.Get (str "Sec-WebSocket-Accept")) = .ok dec →
      dec ≠ sha1.sum (K ++ str "258EAFA5-E914-47DA-95CA-C5AB0DC85B11") →
      validateServerHeaders hdr K = some internal.ErrSecWebSocketKeyMismatch) ∧
    (validateServerHeaders hdr K = none ↔
      caseVariant (hdr.Get (str "Upgrade")) (str "websocket") = true ∧
      caseVariant (hdr.Get (str "Connection")) (str "upgrade") = true ∧
      base64.DecodeString (hdr.Get (str "Sec-WebSocket-Accept"))
        = .ok (sha1.sum (K ++ str "258EAFA5-E914-47DA-95CA-C5AB0DC85B11"))) := by
  have hG : internal.GUID = str "258EAFA5-E914-47DA-95CA-C5AB0DC85B11" := rfl
  refine ⟨fun hU => ?_, fun hU hC => ?_, fun hU hC off hD => ?_, fun hU hC dec hD hne => ?_, ?_⟩
  · have h : ¬ ToLower (hdr.Get (str "Upgrade")) = internal.UpgradeHeader := by
      rw [ToLower_eq_UpgradeHeader]; simp [hU]
    simp [validateServerHeaders, validateServerHeadersWith, h]
  · have h := (ToLower_eq_UpgradeHeader _).2 hU
    have h2 : ¬ ToLower (hdr.Get (str "Connection")) = internal.ConnectionHeader := by
      rw [ToLower_eq_ConnectionHeader]; simp [hC]
    simp [validateServerHeaders, validateServerHeadersWith, h, h2]
  · rw [validateServerHeaders_of_pass hdr K ((ToLower_eq_UpgradeHeader _).2 hU)
      ((ToLower_eq_ConnectionHeader _).2 hC), hD]
  · rw [validateServerHeaders_of_pass hdr K ((ToLower_eq_UpgradeHeader _).2 hU)
      ((ToLower_eq_ConnectionHeader _).2 hC), hD, hG]
    simp [Ne.symm hne, internal.ErrSecWebSocketKeyMismatch]
  · by_cases hU : ToLower (hdr.Get (str "Upgrade")) = internal.UpgradeHeader
    · by_cases hC : ToLower (hdr.Get (str "Connection")) = internal.ConnectionHeader
      · rw [validateServerHeaders_of_pass hdr K hU hC, ← hG]
        simp only [(ToLower_eq_UpgradeHeader _).1 hU, (ToLower_eq_ConnectionHeader _).1 hC, true_and]
        cases hD : base64.DecodeString (hdr.Get (str "Sec-WebSocket-Accept")) with
        | error off => simp
        | ok dec =>
          simp only [Except.ok.injEq]
          constructor
          · intro h
            by_contra hne
            simp [Ne.symm hne] at h
          · intro h
            simp [h]
      · have hC2 := hC
        rw [ToLower_eq_ConnectionHeader] at hC2
        simp [validateServerHeaders, validateServerHeadersWith, hU, hC, hC2, internal.ErrConnectionMismatch]
    · have hU2 := hU
      rw [ToLower_eq_UpgradeHeader] at hU2
      simp [validateServerHeaders, validateServerHeadersWith, hU, hU2, internal.ErrUpgradeMismatch]

theorem validateServerHeaders_check_order_witness :
    validateServerHeaders [(str "Upgrade", [str "chat"]), (str "Connection", [str "close"]),
      (str "Sec-Websocket-Accept", [str "!"])] [] = some internal.ErrUpgradeMismatch ∧
    validateServerHeaders [(str "Upgrade", [str "websocket"]), (str "Connection", [str "close"]),
      (str "Sec-Websocket-Accept", [str "!"])] [] = some internal.ErrConnectionMismatch ∧
    validateServerHeaders (serverHeaders (str "!")) [] = some (Error.CorruptInput 0) :=
  ⟨(validateServerHeaders_check_order _ _).1 (by decide),
    (validateServerHeaders_check_order _ _).2.1 (by decide) (by decide),
    (validateServerHeaders_check_order _ _).2.2.1 (by decide) (by decide) 0 (by decide)⟩

/-! ## The runs of `Open` -/

theorem validateServerHeadersWith_internal (hdr : Header) (K : GoString) :
    validateServerHeadersWith internal.ConnectionHeader hdr K = validateServerHeaders hdr K :=
  rfl

/-- The eleven ways a call of `Open` can end, each with the outcomes of the
library calls that lead to it. -/
theorem Open_cases (w : World) (address : GoString) :
    (∃ e, url.Parse w.parseRest w.setFragment address = .error e ∧
      Open w address = ⟨none, some (Error.url e), Sock.init⟩) ∨
    (∃ uri0, url.Parse w.parseRest w.setFragment address = .ok uri0 ∧ httpScheme uri0.Scheme = none ∧
      Open w address
        = ⟨none, some (Error.New (str "websocket: unsupported protocol " ++ uri0.Scheme)), Sock.init⟩) ∨
    (∃ uri0 scheme e, url.Parse w.parseRest w.setFragment address = .ok uri0 ∧
      httpScheme uri0.Scheme = some scheme ∧
      w.NewRequest (str "GET") (url.URL.String { uri0 with Scheme := scheme }) = some e ∧
      Open w address = ⟨none, some (Error.lib e), Sock.init⟩) ∨
    (∃ uri0 scheme e, url.Parse w.parseRest w.setFragment address = .ok uri0 ∧
      httpScheme uri0.Scheme = some scheme ∧
      w.NewRequest (str "GET") (url.URL.String { uri0 with Scheme := scheme }) = none ∧
      w.GenerateV4 = .error e ∧
      Open w address = ⟨none, some (Error.lib e), Sock.init⟩) ∨
    (∃ uri0 scheme guid e, Prepares w address uri0 scheme guid ∧
      w.Dial (str "tcp") uri0.Host = .error e ∧
      Open w address = ⟨none, some (Error.lib e), Sock.init⟩) ∨
    (∃ uri0 scheme guid conn e, Prepares w address uri0 scheme guid ∧
      w.Dial (str "tcp") uri0.Host = .ok conn ∧
      w.DumpRequestOut (requestOf uri0 scheme guid) = .error e ∧
      Open w address = ⟨none, some (Error.lib e), (Sock.init.dial conn).Close⟩) ∨
    (∃ uri0 scheme guid conn b e, Prepares w address uri0 scheme guid ∧
      w.Dial (str "tcp") uri0.Host = .ok conn ∧
      w.DumpRequestOut (requestOf uri0 scheme guid) = .ok b ∧
      w.Write conn b = some e ∧
      Open w address = ⟨none, some (Error.lib e), ((Sock.init.dial conn).Write b).Close⟩) ∨
    (∃ uri0 scheme guid conn b e, Prepares w address uri0 scheme guid ∧
      w.Dial (str "tcp") uri0.Host = .ok conn ∧
      w.DumpRequestOut (requestOf uri0 scheme guid) = .ok b ∧
      w.Write conn b = none ∧
      w.ReadResponse conn (requestOf uri0 scheme guid) = .error e ∧
      Open w address = ⟨none, some (Error.lib e), ((Sock.init.dial conn).Write b).Close⟩) ∨
    (∃ uri0 scheme guid conn b rr, ReadsResponse w address uri0 scheme guid conn b rr ∧
      rr.StatusCode ≠ 101 ∧
      Open w address
        = ⟨none, some (Error.New (str "websocket: client did not receive 101 status response")),
          ((Sock.init.dial conn).Write b).Close⟩) ∨
    (∃ uri0 scheme guid conn b rr e, ReadsResponse w address uri0 scheme guid conn b rr ∧
      rr.StatusCode = 101 ∧
      validateServerHeaders rr.Header (base64.EncodeToString guid) = some e ∧
      Open w address = ⟨none, some e, ((Sock.init.dial conn).Write b).Close⟩) ∨
    (∃ uri0 scheme guid conn b rr, ReadsResponse w address uri0 scheme guid conn b rr ∧
      rr.StatusCode = 101 ∧
      validateServerHeaders rr.Header (base64.EncodeToString guid) = none ∧
      Open w address = ⟨some (newWebSocket conn true), none, (Sock.init.dial conn).Write b⟩) := by
  cases h1 : url.Parse w.parseRest w.setFragment address with
  | error e => exact Or.inl ⟨e, rfl, by simp [Open, OpenWith, h1]⟩
  | ok uri0 =>
    right
    cases h2 : httpScheme uri0.Scheme with
    | none =>
      refine Or.inl ⟨uri0, rfl, (by assumption), ?_⟩
      simp only [httpScheme] at h2
      simp [Open, OpenWith, h1, h2]
    | some scheme =>
      right
      have h2b := h2
      simp only [httpScheme] at h2b
      cases h3 : w.NewRequest (str "GET") (url.URL.String { uri0 with Scheme := scheme }) with
      | some e => exact Or.inl ⟨uri0, scheme, e, rfl, (by assumption), (by assumption),
        by simp [Open, OpenWith, h1, h2b, h3]⟩
      | none =>
        right
        cases h4 : w.GenerateV4 with
        | error e =>
          exact Or.inl ⟨uri0, scheme, e, rfl, (by assumption), (by assumption), rfl,
            by simp [Open, OpenWith, h1, h2b, h3, h4]⟩
        | ok guid =>
          right
          have hp : Prepares w address uri0 scheme guid := ⟨h1, (by assumption), (by assumption),
            (by assumption)⟩
          cases h5 : w.Dial (str "tcp") uri0.Host with
          | error e =>
            exact Or.inl ⟨uri0, scheme, guid, e, hp, (by assumption), by simp [Open, OpenWith, h1, h2b, h3,
              h4, h5]⟩
          | ok conn =>
            right
            cases h6 : w.DumpRequestOut (requestOf uri0 scheme guid) with
            | error e =>
              refine Or.inl ⟨uri0, scheme, guid, conn, e, hp, (by assumption), (by assumption), ?_⟩
              simp only [requestOf, requestWith, upgradeRequest] at h6
              simp [Open, OpenWith, h1, h2b, h3, h4, h5, h6]
            | ok b =>
              right
              cases h7 : w.Write conn b with
              | some e =>
                refine Or.inl ⟨uri0, scheme, guid, conn, b, e, hp, (by assumption),
                  (by assumption), (by assumption), ?_⟩
                simp only [requestOf, requestWith, upgradeRequest] at h6
                simp [Open, OpenWith, h1, h2b, h3, h4, h5, h6, h7]
              | none =>
                right
                cases h8 : w.ReadResponse conn (requestOf uri0 scheme guid) with
                | error e =>
                  refine Or.inl ⟨uri0, scheme, guid, conn, b, e, hp, (by assumption),
                    (by assumption), (by assumption), (by assumption), ?_⟩
                  simp only [requestOf, requestWith, upgradeRequest] at h6 h8
                  simp [Open, OpenWith, h1, h2b, h3, h4, h5, h6, h7, h8]
                | ok rr =>
                  right
                  have hr : ReadsResponse w address uri0 scheme guid conn b rr :=
                    ⟨hp, (by assumption), (by assumption), (by assumption), (by assumption)⟩
                  simp only [requestOf, requestWith, upgradeRequest] at h6 h8
                  by_cases h9 : rr.StatusCode = 101
                  · right
                    cases h10 : validateServerHeaders rr.Header (base64.EncodeToString guid) with
                    | some e =>
                      exact Or.inl ⟨uri0, scheme, guid, conn, b, rr, e, hr, (by assumption),
                        (by assumption),
                        by simp [Open, OpenWith, h1, h2b, h3, h4, h5, h6, h7, h8, h9, h10, validateServerHeadersWith_internal]⟩
                    | none =>
                      exact Or.inr ⟨uri0, scheme, guid, conn, b, rr, hr, (by assumption),
                        (by assumption),
                        by simp [Open, OpenWith, h1, h2b, h3, h4, h5, h6, h7, h8, h9, h10, validateServerHeadersWith_internal]⟩
                  · exact Or.inl ⟨uri0, scheme, guid, conn, b, rr, hr, (by assumption),
                      by simp [Open, OpenWith, h1, h2b, h3, h4, h5, h6, h7, h8, h9]⟩

/-! ## Status other than 101 (C7) -/

theorem Prepares_unique (w : World) (address : GoString) (uri0 uri1 : url.URL)
    (scheme scheme1 guid guid1 : GoString) (h : Prepares w address uri0 scheme guid)
    (h1 : Prepares w address uri1 scheme1 guid1) :
    uri0 = uri1 ∧ scheme = scheme1 ∧ guid = guid1 := by
  obtain ⟨a1, a2, _, a4⟩ := h
  obtain ⟨b1, b2, _, b4⟩ := h1
  rw [a1] at b1
  cases b1
  rw [a2] at b2
  cases b2
  rw [a4] at b4
  cases b4
  exact ⟨rfl, rfl, rfl⟩

/-- C7: on every run of `Open` that parses a response whose status code is
not 101, `Open` returns the handshake-rejected error and no connection, and
closes the socket, whatever the headers of the response are. -/
theorem Open_rejects_non_101 (w : World) (address : GoString) (uri0 : url.URL)
    (scheme guid : GoString) (conn : Nat) (b : List Nat) (rr : Response)
    (h : ReadsResponse w address uri0 scheme guid conn b rr) (hs : rr.StatusCode ≠ 101) :
    Open w address
      = ⟨none, some (Error.New (str "websocket: client did not receive 101 status response")),
        ((Sock.init.dial conn).Write b).Close⟩ := by
  obtain ⟨⟨h1, h2, h3, h4⟩, h5, h6, h7, h8⟩ := h
  simp only [httpScheme] at h2
  simp only [requestOf, requestWith, upgradeRequest] at h6 h8
  simp [Open, OpenWith, h1, h2, h3, h4, h5, h6, h7, h8, hs]

theorem Open_rejects_non_101_witness :
    Open rejectingWorld (str "ws://host:80/chat")
      = ⟨none, some (Error.New (str "websocket: client did not receive 101 status response")),
        ⟨SockState.closed, some 3, 1, [str "GET http://host:80/chat"]⟩⟩ :=
  Open_rejects_non_101 rejectingWorld (str "ws://host:80/chat") ⟨str "ws", str "host:80", str "//host:80/chat", []⟩
    (str "http") (str "the sample nonce") 3 (str "GET http://host:80/chat")
    ⟨200, (conformingResponse (requestOf ⟨str "ws", str "host:80", str "//host:80/chat", []⟩ (str "http")
      (str "the sample nonce"))).Header⟩
    ⟨⟨by decide, by decide, rfl, rfl⟩, rfl, by decide, rfl, rfl⟩ (by decide)

/-! ## The socket (C8) -/

theorem Dials_of_Prepares (w : World) (address : GoString) (uri0 : url.URL)
    (scheme guid : GoString) (c : Nat) (h : Prepares w address uri0 scheme guid) :
    Dials w address c ↔ w.Dial (str "tcp") uri0.Host = .ok c := by
  constructor
  · rintro ⟨u, s, g, hp, hd⟩
    obtain ⟨rfl, -, -⟩ := Prepares_unique w address _ _ _ _ _ _ h hp
    exact hd
  · intro hd
    exact ⟨uri0, scheme, guid, h, hd⟩

/-- The socket recorded by `Open` is the one a successful dial returned. -/
theorem Dials_iff (w : World) (address : GoString) (c : Nat) :
    Dials w address c ↔ (Open w address).sock.conn = some c := by
  rcases Open_cases w address with ⟨e, h1, hO⟩ | ⟨uri0, h1, h2, hO⟩ |
    ⟨uri0, scheme, e, h1, h2, h3, hO⟩ | ⟨uri0, scheme, e, h1, h2, h3, h4, hO⟩ |
    ⟨uri0, scheme, guid, e, hp, h5, hO⟩ | ⟨uri0, scheme, guid, conn, e, hp, h5, h6, hO⟩ |
    ⟨uri0, scheme, guid, conn, b, e, hp, h5, h6, h7, hO⟩ |
    ⟨uri0, scheme, guid, conn, b, e, hp, h5, h6, h7, h8, hO⟩ |
    ⟨uri0, scheme, guid, conn, b, rr, hr, h9, hO⟩ |
    ⟨uri0, scheme, guid, conn, b, rr, e, hr, h9, h10, hO⟩ |
    ⟨uri0, scheme, guid, conn, b, rr, hr, h9, h10, hO⟩
  · simp only [hO, Sock.init]
    refine ⟨?_, fun h => by cases h⟩
    rintro ⟨u, s, g, ⟨p1, p2, p3, p4⟩, p5⟩
    rw [h1] at p1; cases p1
  · simp only [hO, Sock.init]
    refine ⟨?_, fun h => by cases h⟩
    rintro ⟨u, s, g, ⟨p1, p2, p3, p4⟩, p5⟩
    rw [h1] at p1; cases p1
    rw [h2] at p2; cases p2
  · simp only [hO, Sock.init]
    refine ⟨?_, fun h => by cases h⟩
    rintro ⟨u, s, g, ⟨p1, p2, p3, p4⟩, p5⟩
    rw [h1] at p1; cases p1
    rw [h2] at p2; cases p2
    rw [h3] at p3; cases p3
  · simp only [hO, Sock.init]
    refine ⟨?_, fun h => by cases h⟩
    rintro ⟨u, s, g, ⟨p1, p2, p3, p4⟩, p5⟩
    rw [h4] at p4; cases p4
  · rw [Dials_of_Prepares w address uri0 scheme guid c hp, h5, hO]; simp [Sock.init]
  · rw [Dials_of_Prepares w address uri0 scheme guid c hp, h5, hO]
    simp [Sock.init, Sock.dial, Sock.Close]
  · rw [Dials_of_Prepares w address uri0 scheme guid c hp, h5, hO]
    simp [Sock.init, Sock.dial, Sock.Close, Sock.Write]
  · rw [Dials_of_Prepares w address uri0 scheme guid c hp, h5, hO]
    simp [Sock.init, Sock.dial, Sock.Close, Sock.Write]
  · rw [Dials_of_Prepares w address uri0 scheme guid c hr.1, hr.2.1, hO]
    simp [Sock.init, Sock.dial, Sock.Close, Sock.Write]
  · rw [Dials_of_Prepares w address uri0 scheme guid c hr.1, hr.2.1, hO]
    simp [Sock.init, Sock.dial, Sock.Close, Sock.Write]
  · rw [Dials_of_Prepares w address uri0 scheme guid c hr.1, hr.2.1, hO]
    simp [Sock.init, Sock.dial, Sock.Close, Sock.Write]

/-- C8: socket discipline of `Open`. When the dial succeeded and `Open`
returns an error, the socket has been closed exactly once; when `Open` returns
a connection, the socket has not been closed and is the one the connection
wraps; when the run fails before a successful dial, no socket was opened and
nothing was written. -/
theorem Open_socket_discipline (w : World) (address : GoString) :
    (∀ conn, Dials w address conn → (Open w address).err ≠ none →
      (Open w address).sock.state = SockState.closed ∧ (Open w address).sock.closes = 1 ∧
      (Open w address).sock.conn = some conn ∧ (Open w address).ws = none) ∧
    (∀ c, (Open w address).ws = some c →
      (Open w address).sock.state = SockState.opened ∧ (Open w address).sock.closes = 0 ∧
      (Open w address).sock.conn = some c.conn ∧ Dials w address c.conn) ∧
    ((¬ ∃ conn, Dials w address conn) →
      (Open w address).sock = Sock.init ∧ (Open w address).ws = none ∧
      (Open w address).err ≠ none) := by
  simp only [Dials_iff]
  rcases Open_cases w address with ⟨e, h1, hO⟩ | ⟨uri0, h1, h2, hO⟩ |
    ⟨uri0, scheme, e, h1, h2, h3, hO⟩ | ⟨uri0, scheme, e, h1, h2, h3, h4, hO⟩ |
    ⟨uri0, scheme, guid, e, hp, h5, hO⟩ | ⟨uri0, scheme, guid, conn, e, hp, h5, h6, hO⟩ |
    ⟨uri0, scheme, guid, conn, b, e, hp, h5, h6, h7, hO⟩ |
    ⟨uri0, scheme, guid, conn, b, e, hp, h5, h6, h7, h8, hO⟩ |
    ⟨uri0, scheme, guid, conn, b, rr, hr, h9, hO⟩ |
    ⟨uri0, scheme, guid, conn, b, rr, e, hr, h9, h10, hO⟩ |
    ⟨uri0, scheme, guid, conn, b, rr, hr, h9, h10, hO⟩ <;>
  simp [hO, Sock.init, Sock.dial, Sock.Close, Sock.Write, newWebSocket]

theorem Open_socket_discipline_witness :
    (Open rejectingWorld (str "ws://host:80/chat")).sock.closes = 1 ∧
    (Open sampleWorld (str "http://host:80/chat")).sock = Sock.init :=
  ⟨((Open_socket_discipline rejectingWorld (str "ws://host:80/chat")).1 3
      ⟨⟨str "ws", str "host:80", str "//host:80/chat", []⟩, str "http", str "the sample nonce",
        ⟨by decide, by decide, rfl, rfl⟩, rfl⟩ (by decide)).2.1,
    ((Open_socket_discipline sampleWorld (str "http://host:80/chat")).2.2 (by
      rintro ⟨c, u, s, g, ⟨h1, h2, -, -⟩, -⟩
      have hu : url.Parse sampleWorld.parseRest sampleWorld.setFragment (str "http://host:80/chat")
        = .ok ⟨str "http", str "host:80", str "//host:80/chat", []⟩ := by decide
      rw [hu] at h1
      cases h1
      have hs : httpScheme (str "http") = none := by decide
      simp [hs] at h2)).1⟩

/-! ## A connection exactly on full success (C3) -/

/-- Unfolding of `Open` on a run that reads a response. -/
theorem Open_of_ReadsResponse (w : World) (address : GoString) (uri0 : url.URL)
    (scheme guid : GoString) (conn : Nat) (b : List Nat) (rr : Response)
    (h : ReadsResponse w address uri0 scheme guid conn b rr) :
    Open w address =
      if rr.StatusCode ≠ 101 then
        ⟨none, some (Error.New (str "websocket: client did not receive 101 status response")),
          ((Sock.init.dial conn).Write b).Close⟩
      else
        match validateServerHeaders rr.Header (base64.EncodeToString guid) with
        | some err => ⟨none, some err, ((Sock.init.dial conn).Write b).Close⟩
        | none => ⟨some (newWebSocket conn true), none, (Sock.init.dial conn).Write b⟩ := by
  obtain ⟨⟨h1, h2, h3, h4⟩, h5, h6, h7, h8⟩ := h
  simp only [httpScheme] at h2
  simp only [requestOf, requestWith, upgradeRequest] at h6 h8
  simp only [Open, OpenWith, h1, h2]
  simp only [h3, h4, h5, h6, h7, h8, validateServerHeadersWith_internal]

/-- C3: `Open` returns a connection exactly when every step succeeded: the
address parsed with an accepted scheme, the request was created and the key
generated, the dial succeeded, the request was serialised and written, a
response was parsed, its status is 101 and `validateServerHeaders` returned
`nil`. The connection is then open and the error is `nil`; in every other case
the connection is `nil` and the error is not. -/
theorem Open_connection_iff (w : World) (address : GoString) :
    ((∃ c, (Open w address).ws = some c) ↔
      ∃ uri0 scheme guid conn b rr, ReadsResponse w address uri0 scheme guid conn b rr ∧
        rr.StatusCode = 101 ∧
        validateServerHeaders rr.Header (base64.EncodeToString guid) = none) ∧
    (∀ c, (Open w address).ws = some c → (Open w address).err = none ∧ c.isOpen = true) ∧
    ((Open w address).ws = none → (Open w address).err ≠ none) := by
  refine ⟨⟨?_, ?_⟩, ?_⟩
  · rintro ⟨c, hc⟩
    rcases Open_cases w address with ⟨e, h1, hO⟩ | ⟨uri0, h1, h2, hO⟩ |
      ⟨uri0, scheme, e, h1, h2, h3, hO⟩ | ⟨uri0, scheme, e, h1, h2, h3, h4, hO⟩ |
      ⟨uri0, scheme, guid, e, hp, h5, hO⟩ | ⟨uri0, scheme, guid, conn, e, hp, h5, h6, hO⟩ |
      ⟨uri0, scheme, guid, conn, b, e, hp, h5, h6, h7, hO⟩ |
      ⟨uri0, scheme, guid, conn, b, e, hp, h5, h6, h7, h8, hO⟩ |
      ⟨uri0, scheme, guid, conn, b, rr, hr, h9, hO⟩ |
      ⟨uri0, scheme, guid, conn, b, rr, e, hr, h9, h10, hO⟩ |
      ⟨uri0, scheme, guid, conn, b, rr, hr, h9, h10, hO⟩
    all_goals first
      | exact ⟨uri0, scheme, guid, conn, b, rr, hr, h9, h10⟩
      | (rw [hO] at hc; cases hc)
  · rintro ⟨uri0, scheme, guid, conn, b, rr, hr, h9, h10⟩
    rw [Open_of_ReadsResponse w address uri0 scheme guid conn b rr hr]
    simp [h9, h10]
  · rcases Open_cases w address with ⟨e, h1, hO⟩ | ⟨uri0, h1, h2, hO⟩ |
      ⟨uri0, scheme, e, h1, h2, h3, hO⟩ | ⟨uri0, scheme, e, h1, h2, h3, h4, hO⟩ |
      ⟨uri0, scheme, guid, e, hp, h5, hO⟩ | ⟨uri0, scheme, guid, conn, e, hp, h5, h6, hO⟩ |
      ⟨uri0, scheme, guid, conn, b, e, hp, h5, h6, h7, hO⟩ |
      ⟨uri0, scheme, guid, conn, b, e, hp, h5, h6, h7, h8, hO⟩ |
      ⟨uri0, scheme, guid, conn, b, rr, hr, h9, hO⟩ |
      ⟨uri0, scheme, guid, conn, b, rr, e, hr, h9, h10, hO⟩ |
      ⟨uri0, scheme, guid, conn, b, rr, hr, h9, h10, hO⟩ <;>
    simp [hO, newWebSocket]

set_option maxRecDepth 1000000 in
theorem Open_connection_iff_witness :
    ∃ c, (Open sampleWorld (str "ws://host:80/chat")).ws = some c :=
  (Open_connection_iff sampleWorld (str "ws://host:80/chat")).1.2
    ⟨⟨str "ws", str "host:80", str "//host:80/chat", []⟩, str "http", str "the sample nonce", 3,
      str "GET http://host:80/chat",
      conformingResponse (requestOf ⟨str "ws", str "host:80", str "//host:80/chat", []⟩ (str "http")
        (str "the sample nonce")),
      ⟨⟨by decide, by decide, rfl, rfl⟩, rfl, by decide, rfl, rfl⟩, rfl, by decide⟩

/-! ## Schemes (C5, C6) -/

/-- C5 (as stated) fails: an address that `url.Parse` rejects gets the
parser's error, not the unsupported-protocol error, although its scheme is
not `ws` or `wss`: `:foo` has no scheme, `http://host` followed by the byte
`0x7f` has the scheme `http`. -/
theorem Open_parse_error_not_unsupported :
    url.getScheme (str ":foo") = .error (str "missing protocol scheme") ∧
    (Open sampleWorld (str ":foo")).err
      = some (Error.url ⟨str "parse", str ":foo", str "missing protocol scheme"⟩) ∧
    url.getScheme (str "http://host" ++ [127]) = .ok (str "http", str "//host" ++ [127]) ∧
    (Open sampleWorld (str "http://host" ++ [127])).err
      = some (Error.url ⟨str "parse", str "http://host" ++ [127],
          str "net/url: invalid control character in URL"⟩) := by
  decide

/-- C5 (amended): for every address that `url.Parse` accepts and whose parsed
scheme is neither `ws` nor `wss` (the empty scheme included), `Open` returns
the error with message `websocket: unsupported protocol ` followed by that
scheme; for every address `url.Parse` rejects, `Open` returns the parser's
error; in both cases there is no connection, no socket is opened and nothing
is written. -/
theorem Open_unsupported_protocol (w : World) (address : GoString) :
    (∀ uri0, url.Parse w.parseRest w.setFragment address = .ok uri0 →
      uri0.Scheme ≠ str "ws" → uri0.Scheme ≠ str "wss" →
      Open w address
        = ⟨none, some (Error.New (str "websocket: unsupported protocol " ++ uri0.Scheme)),
          ⟨SockState.unopened, none, 0, []⟩⟩) ∧
    (∀ e, url.Parse w.parseRest w.setFragment address = .error e →
      Open w address = ⟨none, some (Error.url e), ⟨SockState.unopened, none, 0, []⟩⟩) := by
  refine ⟨fun uri0 h1 h2 h3 => ?_, fun e h1 => ?_⟩
  · simp [Open, OpenWith, h1, h2, h3, Sock.init]
  · simp [Open, OpenWith, h1, Sock.init]

theorem Open_unsupported_protocol_witness :
    Open sampleWorld (str "http://host:80/chat")
      = ⟨none, some (Error.New (str "websocket: unsupported protocol http")),
          ⟨SockState.unopened, none, 0, []⟩⟩ ∧
    Open sampleWorld (str "host/chat")
      = ⟨none, some (Error.New (str "websocket: unsupported protocol ")),
          ⟨SockState.unopened, none, 0, []⟩⟩ :=
  ⟨(Open_unsupported_protocol sampleWorld (str "http://host:80/chat")).1
      ⟨str "http", str "host:80", str "//host:80/chat", []⟩ (by decide) (by decide) (by decide),
    (Open_unsupported_protocol sampleWorld (str "host/chat")).1
      ⟨[], [], str "host/chat", []⟩ (by decide) (by decide) (by decide)⟩

theorem caseVariant_nil_right (v : GoString) (h : caseVariant v [] = true) : v = [] := by
  cases v with
  | nil => rfl
  | cons a v => simp [caseVariant] at h

theorem caseVariant_ws (s : GoString) (h : caseVariant s (str "ws") = true) :
    s = [119, 115] ∨ s = [119, 83] ∨ s = [87, 115] ∨ s = [87, 83] := by
  have hstr : str "ws" = [119, 115] := by decide
  rw [hstr] at h
  rcases s with _ | ⟨a, _ | ⟨b, t⟩⟩
  · simp [caseVariant] at h
  · rw [caseVariant_cons _ _ _ _ (by simp) (by simp)] at h
    simp [caseVariant] at h
  · rw [caseVariant_cons _ _ _ _ (by simp) (by simp),
      caseVariant_cons _ _ _ _ (by simp) (by simp)] at h
    simp only [Bool.and_eq_true] at h
    obtain ⟨h1, h2, h3⟩ := h
    have ht := caseVariant_nil_right t h3
    subst ht
    simp only [sameLetter, decide_eq_true_eq] at h1 h2
    simp only [List.cons.injEq, and_true]
    omega

theorem caseVariant_wss (s : GoString) (h : caseVariant s (str "wss") = true) :
    ∃ a b c, s = [a, b, c] ∧ (a = 119 ∨ a = 87) ∧ (b = 115 ∨ b = 83) ∧ (c = 115 ∨ c = 83) := by
  have hstr : str "wss" = [119, 115, 115] := by decide
  rw [hstr] at h
  rcases s with _ | ⟨a, _ | ⟨b, _ | ⟨c, t⟩⟩⟩
  · simp [caseVariant] at h
  · rw [caseVariant_cons _ _ _ _ (by simp) (by simp)] at h
    simp [caseVariant] at h
  · rw [caseVariant_cons _ _ _ _ (by simp) (by simp),
      caseVariant_cons _ _ _ _ (by simp) (by simp)] at h
    simp [caseVariant] at h
  · rw [caseVariant_cons _ _ _ _ (by simp) (by simp),
      caseVariant_cons _ _ _ _ (by simp) (by simp),
      caseVariant_cons _ _ _ _ (by simp) (by simp)] at h
    simp only [Bool.and_eq_true] at h
    obtain ⟨h1, h2, h3, h4⟩ := h
    have ht := caseVariant_nil_right t h4
    subst ht
    simp only [sameLetter, decide_eq_true_eq] at h1 h2 h3
    refine ⟨a, b, c, rfl, ?_, ?_, ?_⟩ <;> omega

theorem validateServerHeaders_ne_New (hdr : Header) (K m : GoString) :
    validateServerHeaders hdr K ≠ some (Error.New m) := by
  unfold validateServerHeaders validateServerHeadersWith
  split
  · simp [internal.ErrUpgradeMismatch]
  · split
    · simp [internal.ErrConnectionMismatch]
    · simp only [internal.ConcatKey]
      split
      · simp
      · split <;> simp [internal.ErrSecWebSocketKeyMismatch]

/-- An address whose parsed scheme is accepted never gets the
unsupported-protocol error. -/
theorem Open_err_ne_unsupported (w : World) (address t : GoString)
    (h : ∀ uri0, url.Parse w.parseRest w.setFragment address = .ok uri0 → httpScheme uri0.Scheme ≠ none) :
    (Open w address).err ≠ some (Error.New (str "websocket: unsupported protocol " ++ t)) := by
  rcases Open_cases w address with ⟨e, h1, hO⟩ | ⟨uri0, h1, h2, hO⟩ |
    ⟨uri0, scheme, e, h1, h2, h3, hO⟩ | ⟨uri0, scheme, e, h1, h2, h3, h4, hO⟩ |
    ⟨uri0, scheme, guid, e, hp, h5, hO⟩ | ⟨uri0, scheme, guid, conn, e, hp, h5, h6, hO⟩ |
    ⟨uri0, scheme, guid, conn, b, e, hp, h5, h6, h7, hO⟩ |
    ⟨uri0, scheme, guid, conn, b, e, hp, h5, h6, h7, h8, hO⟩ |
    ⟨uri0, scheme, guid, conn, b, rr, hr, h9, hO⟩ |
    ⟨uri0, scheme, guid, conn, b, rr, e, hr, h9, h10, hO⟩ |
    ⟨uri0, scheme, guid, conn, b, rr, hr, h9, h10, hO⟩
  · simp [hO]
  · exact absurd h2 (h uri0 h1)
  · simp [hO]
  · simp [hO]
  · simp [hO]
  · simp [hO]
  · simp [hO]
  · simp [hO]
  · simp [hO, str]
  · rw [hO]
    intro hc
    simp only [Option.some.injEq] at hc
    exact validateServerHeaders_ne_New _ _ _ (hc ▸ h10)
  · simp [hO]

/-! ## The request (C9) -/

theorem base64.EncodeToString_length (bs : List Nat) :
    (base64.EncodeToString bs).length = 4 * ((bs.length + 2) / 3) := by
  induction bs using base64.EncodeToString.induct with
  | case1 => simp [base64.EncodeToString]
  | case2 a => simp [base64.EncodeToString]
  | case3 a b => simp [base64.EncodeToString]
  | case4 a b c rest ih =>
    simp only [base64.EncodeToString, List.length_cons, ih]
    omega

theorem httpScheme_eq (scheme s : GoString) (h : httpScheme scheme = some s) :
    (scheme = str "ws" ∧ s = str "http") ∨ (scheme = str "wss" ∧ s = str "https") := by
  unfold httpScheme at h
  split at h
  · left; exact ⟨by assumption, by cases h; rfl⟩
  · split at h
    · right; exact ⟨by assumption, by cases h; rfl⟩
    · cases h

/-! ## Base64: what the decoder accepts -/

namespace base64

theorem decodeMap_lt (c : Nat) (h : decodeMap c ≠ 255) : decodeMap c < 64 := by
  unfold decodeMap at h ⊢
  split
  · assumption
  · simp_all

theorem encodeStd_length : encodeStd.length = 64 := by decide

theorem encodeStd_decodeMap (c : Nat) (h : decodeMap c ≠ 255) : encodeStd.getD (decodeMap c) 0 = c := by
  unfold decodeMap at h ⊢
  split
  · rename_i hlt
    have hl : List.indexOf c encodeStd < encodeStd.length := by rw [encodeStd_length]; exact hlt
    rw [List.getD_eq_getElem _ _ hl]
    exact List.getElem_indexOf hl
  · simp_all

theorem encode_decodeMap (c : Nat) (h : decodeMap c ≠ 255) : encode (decodeMap c) = c := by
  unfold encode
  rw [Nat.mod_eq_of_lt (decodeMap_lt c h)]
  exact encodeStd_decodeMap c h

theorem decodeMap_newline : decodeMap 10 = 255 ∧ decodeMap 13 = 255 := by decide

theorem skipNewlines_of_no_newline (t : List Nat) (si : Nat) (h : ∀ c ∈ t, c ≠ 10 ∧ c ≠ 13) :
    skipNewlines t si = (t, si) := by
  cases t with
  | nil => rfl
  | cons c t =>
    have hc := h c (by simp)
    simp [skipNewlines, hc.1, hc.2]

theorem skipNewlines_strip (s : List Nat) (si : Nat) :
    strip (skipNewlines s si).1 = strip s := by
  induction s generalizing si with
  | nil => rfl
  | cons c s ih =>
    unfold skipNewlines
    split
    · rename_i h
      rw [ih]
      rcases h with rfl | rfl <;> simp [strip]
    · rfl

theorem strip_no_newline (s : List Nat) : ∀ c ∈ strip s, c ≠ 10 ∧ c ≠ 13 := by
  intro c hc
  simpa using (List.mem_filter.1 hc).2

theorem strip_cons_keep (c : Nat) (s : List Nat) (h1 : c ≠ 10) (h2 : c ≠ 13) :
    strip (c :: s) = c :: strip s := by
  simp [strip, h1, h2]

theorem strip_cons_drop (c : Nat) (s : List Nat) (h : c = 10 ∨ c = 13) :
    strip (c :: s) = strip s := by
  rcases h with rfl | rfl <;> simp [strip]

/-- What a successful `decodePadding` says about the rest of the input. -/
theorem decodePadding_ok (rest : List Nat) (si len : Nat) (dbuf out r : List Nat)
    (h : decodePadding rest si len dbuf out = .ok r) :
    r = out ++ quantumBytes dbuf ∧
      ((dbuf.length = 2 ∧ strip rest = [padChar]) ∨ (3 ≤ dbuf.length ∧ strip rest = [])) := by
  unfold decodePadding at h
  split at h
  · cases h
  · cases h
  · rename_i hl
    split at h
    · cases h
    · rename_i c rest2 si2 hs
      split at h
      · cases h
      · rename_i hc
        have hc2 : c = padChar := by simpa using hc
        split at h
        · rename_i x hs2
          cases h
          refine ⟨rfl, Or.inl ⟨hl, ?_⟩⟩
          have e1 := skipNewlines_strip rest si
          have e2 := skipNewlines_strip rest2 (si2 + 1)
          rw [hs] at e1
          rw [hs2] at e2
          simp only at e1 e2
          rw [← e1, hc2, strip_cons_keep _ _ (by decide) (by decide), ← e2]
          rfl
        · cases h
  · rename_i h0 h1 h2
    split at h
    · rename_i x hs
      cases h
      refine ⟨rfl, Or.inr ⟨?_, ?_⟩⟩
      · have h0b : dbuf.length ≠ 0 := h0
        have h1b : dbuf.length ≠ 1 := h1
        have h2b : dbuf.length ≠ 2 := h2
        omega
      · have e1 := skipNewlines_strip rest si
        rw [hs] at e1
        simp only at e1
        rw [← e1]
        rfl
    · cases h

/-- A successful run of the decoding loop: the digits read so far followed by
the rest of the input, line breaks dropped, have the accepted shape. -/
theorem decodeLoop_ok (s : List Nat) : ∀ (si len : Nat) (dbuf out r : List Nat),
    decodeLoop s si len dbuf out = .ok r → dbuf.length < 4 → (∀ d ∈ dbuf, d < 64) →
    ∃ bs, r = out ++ bs ∧ Accepts (dbuf.map encode ++ strip s) bs := by
  induction s with
  | nil =>
    intro si len dbuf out r h hl hd
    simp only [decodeLoop] at h
    split at h
    · rename_i h0
      cases h
      have : dbuf = [] := List.length_eq_zero.1 h0
      subst this
      exact ⟨[], by simp, Accepts.nil⟩
    · cases h
  | cons c s ih =>
    intro si len dbuf out r h hl hd
    simp only [decodeLoop] at h
    split at h
    · rename_i hc
      have hc1 : c ≠ 10 := fun e => hc (e ▸ decodeMap_newline.1)
      have hc2 : c ≠ 13 := fun e => hc (e ▸ decodeMap_newline.2)
      rw [strip_cons_keep c s hc1 hc2]
      split at h
      · rename_i h3
        obtain ⟨bs, hr, hA⟩ := ih _ _ _ _ _ h (by simp) (by simp)
        match dbuf, h3, hd with
        | [x, y, z], _, hd =>
          have hx : x < 64 := hd x (by simp)
          have hy : y < 64 := hd y (by simp)
          have hz : z < 64 := hd z (by simp)
          refine ⟨quantumBytes [x, y, z, decodeMap c] ++ bs, by simp [hr], ?_⟩
          have := Accepts.full (encode x) (encode y) (encode z) c (strip s) bs
            (decodeMap_encode_ne x) (decodeMap_encode_ne y) (decodeMap_encode_ne z) hc
            (by simpa using hA)
          simpa [decodeMap_encode, Nat.mod_eq_of_lt hx, Nat.mod_eq_of_lt hy, Nat.mod_eq_of_lt hz]
            using this
      · rename_i h3
        obtain ⟨bs, hr, hA⟩ := ih _ _ _ _ _ h (by simp; omega) (by
          intro d hd2
          rcases List.mem_append.1 hd2 with hd2 | hd2
          · exact hd d hd2
          · simp only [List.mem_singleton] at hd2
            rw [hd2]; exact decodeMap_lt c hc)
        refine ⟨bs, hr, ?_⟩
        simpa [encode_decodeMap c hc] using hA
    · rename_i hc
      split at h
      · rename_i hn
        rw [strip_cons_drop c s hn]
        exact ih _ _ _ _ _ h hl hd
      · rename_i hn
        split at h
        · cases h
        · rename_i hp
          have hp2 : c = padChar := by simpa using hp
          obtain ⟨hr, hcase⟩ := decodePadding_ok _ _ _ _ _ _ h
          subst hp2
          rw [strip_cons_keep padChar s (by decide) (by decide)]
          rcases hcase with ⟨h2, hs⟩ | ⟨h3, hs⟩
          · match dbuf, h2, hd with
            | [x, y], _, hd =>
              have hx : x < 64 := hd x (by simp)
              have hy : y < 64 := hd y (by simp)
              refine ⟨quantumBytes [x, y], hr, ?_⟩
              have := Accepts.one (encode x) (encode y) (decodeMap_encode_ne x)
                (decodeMap_encode_ne y)
              rw [hs]
              simpa [decodeMap_encode, Nat.mod_eq_of_lt hx, Nat.mod_eq_of_lt hy] using this
          · have h3b : dbuf.length = 3 := by omega
            match dbuf, h3b, hd with
            | [x, y, z], _, hd =>
              have hx : x < 64 := hd x (by simp)
              have hy : y < 64 := hd y (by simp)
              have hz : z < 64 := hd z (by simp)
              refine ⟨quantumBytes [x, y, z], hr, ?_⟩
              have := Accepts.two (encode x) (encode y) (encode z) (decodeMap_encode_ne x)
                (decodeMap_encode_ne y) (decodeMap_encode_ne z)
              rw [hs]
              simpa [decodeMap_encode, Nat.mod_eq_of_lt hx, Nat.mod_eq_of_lt hy,
                Nat.mod_eq_of_lt hz] using this

theorem DecodeString_ok (s : GoString) (r : List Nat) (h : DecodeString s = .ok r) :
    Accepts (strip s) r := by
  obtain ⟨bs, hr, hA⟩ := decodeLoop_ok s 0 s.length [] [] r h (by simp) (by simp)
  simp only [List.nil_append] at hr
  subst hr
  simpa using hA

theorem EncodeToString_quantum (c0 c1 c2 c3 : Nat) (bs : List Nat) (h0 : decodeMap c0 ≠ 255)
    (h1 : decodeMap c1 ≠ 255) (h2 : decodeMap c2 ≠ 255) (h3 : decodeMap c3 ≠ 255) :
    EncodeToString (quantumBytes [decodeMap c0, decodeMap c1, decodeMap c2, decodeMap c3] ++ bs)
      = c0 :: c1 :: c2 :: c3 :: EncodeToString bs := by
  have l0 := decodeMap_lt c0 h0
  have l1 := decodeMap_lt c1 h1
  have l2 := decodeMap_lt c2 h2
  have l3 := decodeMap_lt c3 h3
  have e0 := encodeStd_decodeMap c0 h0
  have e1 := encodeStd_decodeMap c1 h1
  have e2 := encodeStd_decodeMap c2 h2
  have e3 := encodeStd_decodeMap c3 h3
  simp only [quantumBytes, quantumVal, List.getD_cons_zero, List.getD_cons_succ, List.length_cons,
    List.length_nil, List.take, List.cons_append, List.nil_append, EncodeToString, encode]
  generalize decodeMap c0 = d0 at *
  generalize decodeMap c1 = d1 at *
  generalize decodeMap c2 = d2 at *
  generalize decodeMap c3 = d3 at *
  have a0 : ((d0 * 2 ^ 18 + d1 * 2 ^ 12 + d2 * 2 ^ 6 + d3) / 2 ^ 16 % 256 * 2 ^ 16
      + (d0 * 2 ^ 18 + d1 * 2 ^ 12 + d2 * 2 ^ 6 + d3) / 2 ^ 8 % 256 * 2 ^ 8
      + (d0 * 2 ^ 18 + d1 * 2 ^ 12 + d2 * 2 ^ 6 + d3) % 256)
      = d0 * 2 ^ 18 + d1 * 2 ^ 12 + d2 * 2 ^ 6 + d3 := by omega
  rw [a0]
  have b0 : (d0 * 2 ^ 18 + d1 * 2 ^ 12 + d2 * 2 ^ 6 + d3) / 2 ^ 18 % 64 = d0 := by omega
  have b1 : (d0 * 2 ^ 18 + d1 * 2 ^ 12 + d2 * 2 ^ 6 + d3) / 2 ^ 12 % 64 = d1 := by omega
  have b2 : (d0 * 2 ^ 18 + d1 * 2 ^ 12 + d2 * 2 ^ 6 + d3) / 2 ^ 6 % 64 = d2 := by omega
  have b3 : (d0 * 2 ^ 18 + d1 * 2 ^ 12 + d2 * 2 ^ 6 + d3) % 64 = d3 := by omega
  rw [b0, b1, b2, b3, e0, e1, e2, e3]
  rfl

/-- Accepted input against the canonical encoding of what it decodes to: the
lengths agree, and the characters agree except, possibly, the last character
before the padding, which agrees on the bits that are used. -/
theorem Accepts_encode (t : GoString) (bs : List Nat) (h : Accepts t bs) :
    t.length = (EncodeToString bs).length ∧
    ∀ j, t.getD j 0 ≠ (EncodeToString bs).getD j 0 →
      (bs.length % 3 = 2 ∧ j + 2 = t.length ∧
        decodeMap (t.getD j 0) / 4 = decodeMap ((EncodeToString bs).getD j 0) / 4) ∨
      (bs.length % 3 = 1 ∧ j + 3 = t.length ∧
        decodeMap (t.getD j 0) / 16 = decodeMap ((EncodeToString bs).getD j 0) / 16) := by
  induction h with
  | nil => simp [EncodeToString]
  | one c0 c1 h0 h1 =>
    have l0 := decodeMap_lt c0 h0
    have l1 := decodeMap_lt c1 h1
    have e0 := encodeStd_decodeMap c0 h0
    simp only [quantumBytes, quantumVal, List.getD_cons_zero, List.getD_cons_succ,
      List.length_cons, List.length_nil, List.take, EncodeToString, List.getD_nil]
    refine ⟨trivial, fun j hj => ?_⟩
    have a0 : ((decodeMap c0 * 2 ^ 18 + decodeMap c1 * 2 ^ 12 + 0 * 2 ^ 6 + 0) / 2 ^ 16 % 256
        * 2 ^ 16) / 2 ^ 18 % 64 = decodeMap c0 := by omega
    rcases j with _ | _ | _ | _ | j
    · exfalso; apply hj
      simp only [List.getD_cons_zero, encode]
      rw [a0, e0]
    · right
      refine ⟨by trivial, by trivial, ?_⟩
      simp only [List.getD_cons_zero, List.getD_cons_succ, decodeMap_encode]
      omega
    · exact absurd rfl hj
    · exact absurd rfl hj
    · exact absurd (by simp) hj
  | two c0 c1 c2 h0 h1 h2 =>
    have l0 := decodeMap_lt c0 h0
    have l1 := decodeMap_lt c1 h1
    have l2 := decodeMap_lt c2 h2
    have e0 := encodeStd_decodeMap c0 h0
    have e1 := encodeStd_decodeMap c1 h1
    simp only [quantumBytes, quantumVal, List.getD_cons_zero, List.getD_cons_succ,
      List.length_cons, List.length_nil, List.take, EncodeToString, List.getD_nil]
    refine ⟨trivial, fun j hj => ?_⟩
    have a0 : ((decodeMap c0 * 2 ^ 18 + decodeMap c1 * 2 ^ 12 + decodeMap c2 * 2 ^ 6 + 0) / 2 ^ 16
        % 256 * 2 ^ 16 + (decodeMap c0 * 2 ^ 18 + decodeMap c1 * 2 ^ 12 + decodeMap c2 * 2 ^ 6 + 0)
        / 2 ^ 8 % 256 * 2 ^ 8) / 2 ^ 18 % 64 = decodeMap c0 := by omega
    have a1 : ((decodeMap c0 * 2 ^ 18 + decodeMap c1 * 2 ^ 12 + decodeMap c2 * 2 ^ 6 + 0) / 2 ^ 16
        % 256 * 2 ^ 16 + (decodeMap c0 * 2 ^ 18 + decodeMap c1 * 2 ^ 12 + decodeMap c2 * 2 ^ 6 + 0)
        / 2 ^ 8 % 256 * 2 ^ 8) / 2 ^ 12 % 64 = decodeMap c1 := by omega
    rcases j with _ | _ | _ | _ | j
    · exfalso; apply hj
      simp only [List.getD_cons_zero, encode]
      rw [a0, e0]
    · exfalso; apply hj
      simp only [List.getD_cons_zero, List.getD_cons_succ, encode]
      rw [a1, e1]
    · left
      refine ⟨by trivial, by trivial, ?_⟩
      simp only [List.getD_cons_zero, List.getD_cons_succ, decodeMap_encode]
      omega
    · exact absurd rfl hj
    · exact absurd (by simp) hj
  | full c0 c1 c2 c3 t bs h0 h1 h2 h3 _ ih =>
    rw [EncodeToString_quantum c0 c1 c2 c3 bs h0 h1 h2 h3]
    have hl : (quantumBytes [decodeMap c0, decodeMap c1, decodeMap c2, decodeMap c3] ++ bs).length
        = bs.length + 3 := by
      simp [quantumBytes]
    rw [hl]
    refine ⟨by simp [ih.1], fun j hj => ?_⟩
    rcases j with _ | _ | _ | _ | j
    · exact absurd rfl hj
    · exact absurd rfl hj
    · exact absurd rfl hj
    · exact absurd rfl hj
    · simp only [List.getD_cons_succ] at hj ⊢
      rcases ih.2 j hj with ⟨x1, x2, x3⟩ | ⟨x1, x2, x3⟩
      · left; refine ⟨by omega, by simp only [List.length_cons]; omega, x3⟩
      · right; refine ⟨by omega, by simp only [List.length_cons]; omega, x3⟩

end base64

theorem DiffersAt_set (i : Nat) (s t : GoString) (h : DiffersAt i s t) :
    s = t.set i (s.getD i 0) := by
  obtain ⟨hl, hi, -, hj⟩ := h
  apply List.ext_getElem (by simp [hl])
  intro n h1 h2
  by_cases hn : n = i
  · subst hn
    rw [List.getElem_set_self, List.getD_eq_getElem _ _ h1]
  · rw [List.getElem_set_ne (Ne.symm hn)]
    have := hj n h1 hn
    rw [List.getD_eq_getElem _ _ h1, List.getD_eq_getElem _ _ (hl ▸ h1)] at this
    exact this

theorem base64.EncodeToString_append (p q : List Nat) (h : p.length % 3 = 0) :
    base64.EncodeToString (p ++ q) = base64.EncodeToString p ++ base64.EncodeToString q := by
  induction p using base64.EncodeToString.induct with
  | case1 => simp [base64.EncodeToString]
  | case2 a => simp at h
  | case3 a b => simp at h
  | case4 a b c rest ih =>
    have hr : rest.length % 3 = 0 := by simp only [List.length_cons] at h; omega
    simp only [List.cons_append, base64.EncodeToString]
    rw [← ih hr]
    rfl

theorem base64.decodeLoop_encode_append (p : List Nat) : ∀ (tail : List Nat) (si len : Nat)
    (out : List Nat), p.length % 3 = 0 → (∀ b ∈ p, b < 256) →
    base64.decodeLoop (base64.EncodeToString p ++ tail) si len [] out
      = base64.decodeLoop tail (si + (base64.EncodeToString p).length) len [] (out ++ p) := by
  induction p using base64.EncodeToString.induct with
  | case1 => intro tail si len out _ _; simp [base64.EncodeToString]
  | case2 a => intro tail si len out h; simp at h
  | case3 a b => intro tail si len out h; simp at h
  | case4 a b c rest ih =>
    intro tail si len out h hb
    have hr : rest.length % 3 = 0 := by simp only [List.length_cons] at h; omega
    have ha : a < 256 := hb a (by simp)
    have hb2 : b < 256 := hb b (by simp)
    have hc : c < 256 := hb c (by simp)
    simp only [base64.EncodeToString, List.cons_append]
    rw [base64.decodeLoop_digit _ _ _ _ _ _ (base64.decodeMap_encode_ne _) (by simp),
      base64.decodeLoop_digit _ _ _ _ _ _ (base64.decodeMap_encode_ne _) (by simp),
      base64.decodeLoop_digit _ _ _ _ _ _ (base64.decodeMap_encode_ne _) (by simp),
      base64.decodeLoop_last _ _ _ _ _ _ (base64.decodeMap_encode_ne _) (by simp)]
    simp only [List.nil_append, List.cons_append, base64.decodeMap_encode]
    rw [base64.quantumBytes_full a b c ha hb2 hc, ih _ _ _ _ hr (fun x hx => hb x (by simp [hx]))]
    simp only [List.length_cons, List.append_assoc, List.cons_append, List.nil_append]
    congr 1
    omega

/-- Converse for the last character: a 20-byte value encoded, with the last
character before the padding replaced by one carrying the same four used
bits, still decodes to the same bytes. -/
theorem base64.DecodeString_last_char (s : GoString) (bs : List Nat) (hl : bs.length = 20)
    (hb : ∀ b ∈ bs, b < 256) (hd : DiffersAt 26 s (base64.EncodeToString bs))
    (hc : base64.decodeMap (s.getD 26 0) / 4
      = base64.decodeMap ((base64.EncodeToString bs).getD 26 0) / 4) :
    base64.DecodeString s = .ok bs := by
  have hsplit : bs = bs.take 18 ++ bs.drop 18 := (List.take_append_drop 18 bs).symm
  have hp : (bs.take 18).length = 18 := by simp [hl]
  have hq : (bs.drop 18).length = 2 := by simp [hl]
  obtain ⟨a, b, hab⟩ := List.length_eq_two.1 hq
  have ha : a < 256 := hb a (List.mem_of_mem_drop (hab ▸ List.mem_cons_self a [b]))
  have hb2 : b < 256 :=
    hb b (List.mem_of_mem_drop (hab ▸ List.mem_cons_of_mem a (List.mem_cons_self b [])))
  have hpb : ∀ x ∈ bs.take 18, x < 256 := fun x hx => hb x (List.mem_of_mem_take hx)
  have hE : base64.EncodeToString bs
      = base64.EncodeToString (bs.take 18) ++ base64.EncodeToString [a, b] := by
    conv_lhs => rw [hsplit, hab]
    exact base64.EncodeToString_append _ _ (by rw [hp])
  have hEl : (base64.EncodeToString (bs.take 18)).length = 24 := by
    rw [base64.EncodeToString_length, hp]
  have hs := DiffersAt_set 26 s _ hd
  have h28 : s.length = 28 := by rw [hd.1, base64.EncodeToString_length, hl]
  generalize s.getD 26 0 = c at hs hc
  rw [hE] at hs hc
  rw [List.set_append_right _ _ (by rw [hEl]; omega)] at hs
  rw [List.getD_append_right _ _ _ _ (by rw [hEl]; omega)] at hc
  rw [hEl] at hs hc
  simp only [base64.EncodeToString, Nat.reduceSub, List.set_cons_succ, List.set_cons_zero,
    List.getD_cons_succ, List.getD_cons_zero, base64.decodeMap_encode] at hs hc
  have hc255 : base64.decodeMap c ≠ 255 := by omega
  have hc64 := base64.decodeMap_lt c hc255
  unfold base64.DecodeString
  rw [h28]
  conv_lhs => rw [hs]
  rw [base64.decodeLoop_encode_append _ _ _ _ _ (by rw [hp]) hpb,
    base64.decodeLoop_digit _ _ _ _ _ _ (base64.decodeMap_encode_ne _) (by simp),
    base64.decodeLoop_digit _ _ _ _ _ _ (base64.decodeMap_encode_ne _) (by simp),
    base64.decodeLoop_digit _ _ _ _ _ _ hc255 (by simp), base64.decodeLoop_pad]
  simp only [base64.decodePadding, List.nil_append, List.cons_append, List.length_cons,
    List.length_nil, base64.skipNewlines, base64.decodeMap_encode, base64.quantumBytes,
    base64.quantumVal, List.getD_cons_zero, List.getD_cons_succ, List.getD_nil, List.take]
  conv_rhs => rw [hsplit, hab]
  congr 2
  simp only [List.cons.injEq, and_true]
  constructor <;> omega

theorem base64.DecodeString_single_byte (s : GoString) (bs : List Nat) (i : Nat)
    (hl : bs.length = 20) (hd : DiffersAt i s (base64.EncodeToString bs))
    (h : base64.DecodeString s = .ok bs) :
    i = 26 ∧ base64.decodeMap (s.getD 26 0) / 4
      = base64.decodeMap ((base64.EncodeToString bs).getD 26 0) / 4 := by
  obtain ⟨hlen, hdiff⟩ := base64.Accepts_encode _ _ (base64.DecodeString_ok s bs h)
  have hs : base64.strip s = s := by
    apply List.filter_eq_self.2
    apply List.filter_length_eq_length.1
    exact hlen.trans hd.1.symm
  rw [hs] at hlen hdiff
  have h28 : s.length = 28 := by
    rw [hlen, base64.EncodeToString_length, hl]
  rcases hdiff i hd.2.2.1 with ⟨_, x2, x3⟩ | ⟨x1, _, _⟩
  · have hi : i = 26 := by omega
    subst hi
    exact ⟨rfl, x3⟩
  · omega

theorem validateServerHeaders_of_variants (hdr : Header) (K : GoString)
    (hU : caseVariant (hdr.Get (str "Upgrade")) (str "websocket") = true)
    (hC : caseVariant (hdr.Get (str "Connection")) (str "upgrade") = true) :
    validateServerHeaders hdr K =
      match base64.DecodeString (hdr.Get (str "Sec-WebSocket-Accept")) with
      | .error off => some (Error.CorruptInput off)
      | .ok dec =>
        if sha1.sum (K ++ internal.GUID) ≠ dec then some Error.SecWebSocketKeyMismatch else none :=
  validateServerHeaders_of_pass hdr K ((ToLower_eq_UpgradeHeader _).2 hU)
    ((ToLower_eq_ConnectionHeader _).2 hC)

/-! ## One changed byte of the accept value (C2) -/

set_option maxRecDepth 1000000 in
/-- C2 (as stated) fails. For the key `dGhlIHNhbXBsZSBub25jZQ==` the correct
accept value is `s3pPLMBiTxaQ9kYGzzhZRbK+xOo=`. Changing its last character
before the padding from `o` to `p` changes only bits the decoder drops, and
`validateServerHeaders` returns `nil`; changing its first character to `!`
makes the value undecodable, and the decoder's error is returned instead of
the key-mismatch error. -/
theorem validateServerHeaders_single_byte_change_not_mismatch :
    base64.EncodeToString (sha1.sum (str "dGhlIHNhbXBsZSBub25jZQ==" ++
      str "258EAFA5-E914-47DA-95CA-C5AB0DC85B11")) = str "s3pPLMBiTxaQ9kYGzzhZRbK+xOo=" ∧
    DiffersAt 26 (str "s3pPLMBiTxaQ9kYGzzhZRbK+xOp=") (str "s3pPLMBiTxaQ9kYGzzhZRbK+xOo=") ∧
    validateServerHeaders (serverHeaders (str "s3pPLMBiTxaQ9kYGzzhZRbK+xOp="))
      (str "dGhlIHNhbXBsZSBub25jZQ==") = none ∧
    DiffersAt 0 (str "!3pPLMBiTxaQ9kYGzzhZRbK+xOo=") (str "s3pPLMBiTxaQ9kYGzzhZRbK+xOo=") ∧
    validateServerHeaders (serverHeaders (str "!3pPLMBiTxaQ9kYGzzhZRbK+xOo="))
      (str "dGhlIHNhbXBsZSBub25jZQ==") = some (Error.CorruptInput 0) := by
  decide

/-- C2 (amended): let `A` be the correct accept value of the key `K` and let
the accept value sent differ from `A` in exactly the byte at position `i`,
with passing `Upgrade` and `Connection` headers. Then `validateServerHeaders`
returns `nil` exactly when `i` is 26, the last character before the padding,
and the new character carries the same four used bits as the one it replaces
(the decoded bytes are then unchanged); in every other case it returns the
key-mismatch error or the error of the base64 decoder. -/
theorem validateServerHeaders_single_byte_change (hdr : Header) (K : GoString) (i : Nat)
    (hU : caseVariant (hdr.Get (str "Upgrade")) (str "websocket") = true)
    (hC : caseVariant (hdr.Get (str "Connection")) (str "upgrade") = true)
    (hd : DiffersAt i (hdr.Get (str "Sec-WebSocket-Accept"))
      (base64.EncodeToString (sha1.sum (K ++ str "258EAFA5-E914-47DA-95CA-C5AB0DC85B11")))) :
    (validateServerHeaders hdr K = none ↔
      i = 26 ∧
      base64.decodeMap ((hdr.Get (str "Sec-WebSocket-Accept")).getD 26 0) / 4
        = base64.decodeMap ((base64.EncodeToString
            (sha1.sum (K ++ str "258EAFA5-E914-47DA-95CA-C5AB0DC85B11"))).getD 26 0) / 4) ∧
    (validateServerHeaders hdr K ≠ none →
      validateServerHeaders hdr K = some internal.ErrSecWebSocketKeyMismatch ∨
      ∃ off, validateServerHeaders hdr K = some (Error.CorruptInput off)) := by
  have hG : internal.GUID = str "258EAFA5-E914-47DA-95CA-C5AB0DC85B11" := rfl
  rw [validateServerHeaders_of_variants hdr K hU hC, hG]
  refine ⟨⟨fun h => ?_, fun h => ?_⟩, fun h => ?_⟩
  · cases hD : base64.DecodeString (hdr.Get (str "Sec-WebSocket-Accept")) with
    | error off => rw [hD] at h; cases h
    | ok dec =>
      rw [hD] at h
      by_cases hk : sha1.sum (K ++ str "258EAFA5-E914-47DA-95CA-C5AB0DC85B11") = dec
      · subst hk
        exact base64.DecodeString_single_byte _ _ i (sha1.sum_length _) hd hD
      · simp [hk] at h
  · obtain ⟨rfl, hc⟩ := h
    rw [base64.DecodeString_last_char _ _ (sha1.sum_length _) (sha1.sum_lt _) hd hc]
    simp
  · cases hD : base64.DecodeString (hdr.Get (str "Sec-WebSocket-Accept")) with
    | error off => exact Or.inr ⟨off, rfl⟩
    | ok dec =>
      rw [hD] at h
      left
      by_cases hk : sha1.sum (K ++ str "258EAFA5-E914-47DA-95CA-C5AB0DC85B11") = dec
      · simp [hk] at h
      · simp [hk, internal.ErrSecWebSocketKeyMismatch]

set_option maxRecDepth 1000000 in
theorem validateServerHeaders_single_byte_change_witness :
    validateServerHeaders (serverHeaders (str "s3pXLMBiTxaQ9kYGzzhZRbK+xOo="))
      (str "dGhlIHNhbXBsZSBub25jZQ==") ≠ none :=
  fun h =>
    absurd ((validateServerHeaders_single_byte_change
      (serverHeaders (str "s3pXLMBiTxaQ9kYGzzhZRbK+xOo=")) (str "dGhlIHNhbXBsZSBub25jZQ==") 3
      (by decide) (by decide) (by decide)).1.1 h).1 (by decide)


/-! ## Letter case of the header values (C4) -/

theorem sameLetter_lt (a b : Nat) (hb : b ≤ 122) (h : sameLetter a b = true) : a < 128 := by
  simp only [sameLetter, decide_eq_true_eq] at h
  omega

/-- A letter-case variant in ASCII of a text in lower-case letters is a
letter-case variant in the sense of `strings.ToLower`. -/
theorem asciiCaseVariant_caseVariant : ∀ (v w : GoString), (∀ b ∈ w, 97 ≤ b ∧ b ≤ 122) →
    asciiCaseVariant v w = true → caseVariant v w = true
  | [], [], _, _ => by simp [caseVariant]
  | [], _ :: _, _, h => by simp [asciiCaseVariant] at h
  | _ :: _, [], _, h => by simp [asciiCaseVariant] at h
  | a :: v, b :: w, hw, h => by
    simp only [asciiCaseVariant, Bool.and_eq_true] at h
    have ha := sameLetter_lt a b (hw b (by simp)).2 h.1
    rw [caseVariant_cons a b v w (by rintro ⟨h1, _⟩; omega) (by rintro ⟨h1, _⟩; omega)]
    simp [h.1, asciiCaseVariant_caseVariant v w (fun x hx => hw x (by simp [hx])) h.2]

/-- For a text without `k` and `i` the letter-case variants in the sense of
`strings.ToLower` are the letter-case variants in ASCII. -/
theorem caseVariant_eq_asciiCaseVariant : ∀ (v w : GoString), (∀ b ∈ w, b ≠ 107 ∧ b ≠ 105) →
    caseVariant v w = asciiCaseVariant v w
  | [], [], _ => by simp [caseVariant, asciiCaseVariant]
  | [], _ :: _, _ => by simp [caseVariant, asciiCaseVariant]
  | _ :: _, [], _ => by simp [caseVariant, asciiCaseVariant]
  | a :: v, b :: w, hw => by
    have hb := hw b (by simp)
    rw [caseVariant_cons a b v w (by rintro ⟨_, h2, _⟩; omega) (by rintro ⟨_, h2, _⟩; omega),
      asciiCaseVariant, caseVariant_eq_asciiCaseVariant v w (fun x hx => hw x (by simp [hx]))]


set_option maxRecDepth 1000000 in
/-- C4 (as stated) fails: the `Upgrade` value `WEBSOC`, the Kelvin sign
U+212A (bytes `E2 84 AA`) and `ET` is no letter-case variant of `websocket`,
yet it passes the `Upgrade` check, because `strings.ToLower` maps the Kelvin
sign to `k`: with a valid `Connection` and accept value the result is `nil`. -/
theorem validateServerHeaders_kelvin_sign_passes :
    asciiCaseVariant (str "WEBSOC" ++ [0xE2, 0x84, 0xAA] ++ str "ET") (str "websocket") = false ∧
    validateServerHeaders
      [(str "Upgrade", [str "WEBSOC" ++ [0xE2, 0x84, 0xAA] ++ str "ET"]),
        (str "Connection", [str "Upgrade"]),
        (str "Sec-Websocket-Accept", [str "s3pPLMBiTxaQ9kYGzzhZRbK+xOo="])]
      (str "dGhlIHNhbXBsZSBub25jZQ==") = none := by
  decide

/-- C4 (amended): `validateServerHeaders` compares the lower case that
`strings.ToLower` gives the `Upgrade` and `Connection` values. Every
letter-case variant of `websocket` passes the `Upgrade` check; so does a
value in which the Kelvin sign U+212A stands for `k`, which `strings.ToLower`
also maps to `k`; every other value (the absent header included, read as the
empty string) gives the upgrade-mismatch error. With a passing `Upgrade`, the
`Connection` check passes exactly for the letter-case variants of `upgrade`,
and every other value gives the connection-mismatch error. -/
theorem validateServerHeaders_case_insensitive (hdr : Header) (K : GoString) :
    (asciiCaseVariant (hdr.Get (str "Upgrade")) (str "websocket") = true →
      validateServerHeaders hdr K ≠ some internal.ErrUpgradeMismatch) ∧
    (caseVariant (hdr.Get (str "Upgrade")) (str "websocket") = false →
      validateServerHeaders hdr K = some internal.ErrUpgradeMismatch) ∧
    (caseVariant (hdr.Get (str "Upgrade")) (str "websocket") = true →
      validateServerHeaders hdr K ≠ some internal.ErrUpgradeMismatch ∧
      (asciiCaseVariant (hdr.Get (str "Connection")) (str "upgrade") = false →
        validateServerHeaders hdr K = some internal.ErrConnectionMismatch) ∧
      (asciiCaseVariant (hdr.Get (str "Connection")) (str "upgrade") = true →
        validateServerHeaders hdr K ≠ some internal.ErrConnectionMismatch)) := by
  have h := validateServerHeaders_case_variants hdr K
  rw [caseVariant_eq_asciiCaseVariant (hdr.Get (str "Connection")) (str "upgrade") (by decide)] at h
  exact ⟨fun hU => (h.2 (asciiCaseVariant_caseVariant _ _ (by decide) hU)).1, h.1, h.2⟩

theorem validateServerHeaders_case_insensitive_witness :
    validateServerHeaders [(str "Upgrade", [str "WebSocket"])] []
      ≠ some internal.ErrUpgradeMismatch ∧
    validateServerHeaders [(str "Upgrade", [str "chat"])] [] = some internal.ErrUpgradeMismatch ∧
    validateServerHeaders [] [] = some internal.ErrUpgradeMismatch ∧
    validateServerHeaders [(str "Upgrade", [str "web" ++ [0xC5, 0xBF] ++ str "ocket"])] []
      = some internal.ErrUpgradeMismatch ∧
    validateServerHeaders [(str "Upgrade", [str "WebSocket"]), (str "Connection", [str "keep-alive"])] []
      = some internal.ErrConnectionMismatch ∧
    validateServerHeaders [(str "Upgrade", [str "WebSocket"]), (str "Connection", [str "Upgrade"])] []
      ≠ some internal.ErrConnectionMismatch :=
  ⟨(validateServerHeaders_case_insensitive _ _).1 (by decide),
    (validateServerHeaders_case_insensitive _ _).2.1 (by decide),
    (validateServerHeaders_case_insensitive _ _).2.1 (by decide),
    (validateServerHeaders_case_insensitive _ _).2.1 (by decide),
    ((validateServerHeaders_case_insensitive _ _).2.2 (by decide)).2.1 (by decide),
    ((validateServerHeaders_case_insensitive _ _).2.2 (by decide)).2.2 (by decide)⟩


/-! ## The case of the scheme (C6) -/

theorem parse_scheme_case (pr : GoString → GoString → Except LibError (GoString × GoString))
    (s x : GoString) (h : caseVariant s (str "ws") = true) :
    url.parse pr (s ++ 58 :: x) = url.parse pr (str "ws" ++ 58 :: x) := by
  rcases caseVariant_ws s h with rfl | rfl | rfl | rfl <;>
  simp [url.parse, url.getScheme, url.getSchemeLoop, url.stringContainsCTLByte, str, ToLower,
    lowerByte]

theorem parse_scheme_case_wss (pr : GoString → GoString → Except LibError (GoString × GoString))
    (s x : GoString) (h : caseVariant s (str "wss") = true) :
    url.parse pr (s ++ 58 :: x) = url.parse pr (str "wss" ++ 58 :: x) := by
  obtain ⟨a, b, c, rfl, ha, hb, hc⟩ := caseVariant_wss s h
  rcases ha with rfl | rfl <;> rcases hb with rfl | rfl <;> rcases hc with rfl | rfl <;>
  simp [url.parse, url.getScheme, url.getSchemeLoop, url.stringContainsCTLByte, str, ToLower,
    lowerByte]

theorem parse_ws_scheme (pr : GoString → GoString → Except LibError (GoString × GoString))
    (x : GoString) (uri0 : url.URL) (h : url.parse pr (str "ws" ++ 58 :: x) = .ok uri0) :
    uri0.Scheme = str "ws" := by
  simp [url.parse, url.getScheme, url.getSchemeLoop, url.stringContainsCTLByte, str, ToLower,
    lowerByte] at h
  split at h
  · cases h
  · split at h
    · cases h
    · cases h; simp [str]

theorem parse_wss_scheme (pr : GoString → GoString → Except LibError (GoString × GoString))
    (x : GoString) (uri0 : url.URL) (h : url.parse pr (str "wss" ++ 58 :: x) = .ok uri0) :
    uri0.Scheme = str "wss" := by
  simp [url.parse, url.getScheme, url.getSchemeLoop, url.stringContainsCTLByte, str, ToLower,
    lowerByte] at h
  split at h
  · cases h
  · split at h
    · cases h
    · cases h; simp [str]

theorem takeWhile_scheme (s rest : GoString) (hs : ∀ b ∈ s, b ≠ 35) :
    (s ++ 58 :: rest).takeWhile (fun b => b ≠ 35) = s ++ 58 :: rest.takeWhile (fun b => b ≠ 35) := by
  induction s with
  | nil => simp [List.takeWhile]
  | cons a s ih =>
    have ha : decide (a ≠ 35) = true := by simpa using hs a (by simp)
    rw [List.cons_append, List.takeWhile_cons, ha, ih (fun b hb => hs b (by simp [hb]))]
    rfl

theorem dropWhile_scheme (s rest : GoString) (hs : ∀ b ∈ s, b ≠ 35) :
    (s ++ 58 :: rest).dropWhile (fun b => b ≠ 35) = rest.dropWhile (fun b => b ≠ 35) := by
  induction s with
  | nil => simp [List.dropWhile]
  | cons a s ih =>
    have ha : decide (a ≠ 35) = true := by simpa using hs a (by simp)
    rw [List.cons_append, List.dropWhile_cons, ha, ih (fun b hb => hs b (by simp [hb]))]
    rfl

/-- Unfolding of `url.Parse` on an address that starts with a text without
`#` and a colon. -/
theorem Parse_scheme (pr : GoString → GoString → Except LibError (GoString × GoString))
    (sf : GoString → Except LibError GoString) (s rest : GoString) (hs : ∀ b ∈ s, b ≠ 35) :
    url.Parse pr sf (s ++ 58 :: rest) =
      match url.parse pr (s ++ 58 :: rest.takeWhile (fun b => b ≠ 35)) with
      | .error err => .error ⟨str "parse", s ++ 58 :: rest.takeWhile (fun b => b ≠ 35), err⟩
      | .ok url =>
        if (rest.dropWhile (fun b => b ≠ 35)).drop 1 = [] then .ok url
        else
          match sf ((rest.dropWhile (fun b => b ≠ 35)).drop 1) with
          | .error err => .error ⟨str "parse", s ++ 58 :: rest, err⟩
          | .ok f => .ok { url with Fragment := f } := by
  simp only [url.Parse, takeWhile_scheme s rest hs, dropWhile_scheme s rest hs]

/-- Two addresses that differ in a front that `parse` treats alike: `url.Parse`
gives both the same URL, or fails on both with the same underlying error,
quoting each address as it was given. -/
theorem Parse_of_parse_eq (pr : GoString → GoString → Except LibError (GoString × GoString))
    (sf : GoString → Except LibError GoString) (s s1 rest : GoString)
    (hs : ∀ b ∈ s, b ≠ 35) (hs1 : ∀ b ∈ s1, b ≠ 35)
    (hp : ∀ x, url.parse pr (s ++ 58 :: x) = url.parse pr (s1 ++ 58 :: x)) :
    (∀ u, url.Parse pr sf (s ++ 58 :: rest) = .ok u → url.Parse pr sf (s1 ++ 58 :: rest) = .ok u) ∧
    (∀ e, url.Parse pr sf (s ++ 58 :: rest) = .error e →
      (e.URL = s ++ 58 :: rest.takeWhile (fun b => b ≠ 35) ∨ e.URL = s ++ 58 :: rest) ∧
      ∃ e1, url.Parse pr sf (s1 ++ 58 :: rest) = .error e1 ∧ e1.Op = e.Op ∧ e1.Err = e.Err) := by
  rw [Parse_scheme pr sf s rest hs, Parse_scheme pr sf s1 rest hs1, hp]
  cases url.parse pr (s1 ++ 58 :: rest.takeWhile (fun b => b ≠ 35)) with
  | error err =>
    refine ⟨fun u h => (by cases h), fun e h => ?_⟩
    cases h
    exact ⟨Or.inl rfl, _, rfl, rfl, rfl⟩
  | ok url =>
    by_cases hf : (rest.dropWhile (fun b => b ≠ 35)).drop 1 = []
    · simp only [hf, if_true]
      exact ⟨fun u h => h, fun e h => (by cases h)⟩
    · simp only [hf, if_false]
      cases sf ((rest.dropWhile (fun b => b ≠ 35)).drop 1) with
      | error err =>
        refine ⟨fun u h => (by cases h), fun e h => ?_⟩
        cases h
        exact ⟨Or.inr rfl, _, rfl, rfl, rfl⟩
      | ok f => exact ⟨fun u h => h, fun e h => (by cases h)⟩

/-- The scheme of a URL that `url.Parse` returns is the one `parse` gave. -/
theorem Parse_Scheme (pr : GoString → GoString → Except LibError (GoString × GoString))
    (sf : GoString → Except LibError GoString) (s rest : GoString) (hs : ∀ b ∈ s, b ≠ 35)
    (u : url.URL) (h : url.Parse pr sf (s ++ 58 :: rest) = .ok u) :
    ∃ u0, url.parse pr (s ++ 58 :: rest.takeWhile (fun b => b ≠ 35)) = .ok u0 ∧
      u.Scheme = u0.Scheme := by
  rw [Parse_scheme pr sf s rest hs] at h
  cases hp : url.parse pr (s ++ 58 :: rest.takeWhile (fun b => b ≠ 35)) with
  | error err => rw [hp] at h; cases h
  | ok url =>
    rw [hp] at h
    refine ⟨url, rfl, ?_⟩
    by_cases hf : (rest.dropWhile (fun b => b ≠ 35)).drop 1 = []
    · simp only [hf, if_true] at h
      cases h; rfl
    · simp only [hf, if_false] at h
      cases hsf : sf ((rest.dropWhile (fun b => b ≠ 35)).drop 1) with
      | error err => rw [hsf] at h; cases h
      | ok f => rw [hsf] at h; cases h; rfl

theorem Open_eq_of_Parse_ok (w : World) (a a1 : GoString) (u : url.URL)
    (h : url.Parse w.parseRest w.setFragment a = .ok u)
    (h1 : url.Parse w.parseRest w.setFragment a1 = .ok u) : Open w a = Open w a1 := by
  simp only [Open, OpenWith, h, h1]

theorem caseVariant_ws_no_hash (s : GoString) (h : caseVariant s (str "ws") = true) :
    ∀ b ∈ s, b ≠ 35 := by
  rcases caseVariant_ws s h with rfl | rfl | rfl | rfl <;> decide

theorem caseVariant_wss_no_hash (s : GoString) (h : caseVariant s (str "wss") = true) :
    ∀ b ∈ s, b ≠ 35 := by
  obtain ⟨a, b, c, rfl, ha, hb, hc⟩ := caseVariant_wss s h
  rcases ha with rfl | rfl <;> rcases hb with rfl | rfl <;> rcases hc with rfl | rfl <;> decide

set_option maxRecDepth 1000000 in
/-- C6 (as stated) fails: the address `WS://host:80`, whose scheme is written
`WS`, is not rejected: `url.Parse` lower-cases the scheme, `Open` dials
`host:80` and, with a conforming server, returns a connection. -/
theorem Open_upper_case_scheme_accepted :
    url.getScheme (str "WS://host:80") = .ok (str "WS", str "//host:80") ∧
    Open sampleWorld (str "WS://host:80")
      = ⟨some ⟨3, true, none⟩, none,
          ⟨SockState.opened, some 3, 0, [str "GET http://host:80"]⟩⟩ := by
  decide

/-- C6 (amended): `Open` compares the scheme that `url.Parse` returns, and
`url.Parse` lower-cases it. An address whose scheme is a letter-case variant
of `ws` or `wss` never gets the unsupported-protocol error. When `url.Parse`
accepts it, it gives the URL it gives the same address with the scheme in
lower case, and `Open` does with the one exactly what it does with the other.
When `url.Parse` rejects it, `Open` returns the parser's error, which quotes
the address as it was written; the address with the scheme in lower case is
rejected with the same operation and underlying error. -/
theorem Open_scheme_case_insensitive (w : World) (s rest : GoString)
    (h : caseVariant s (str "ws") = true ∨ caseVariant s (str "wss") = true) :
    (∀ t, (Open w (s ++ 58 :: rest)).err
      ≠ some (Error.New (str "websocket: unsupported protocol " ++ t))) ∧
    (∀ u, url.Parse w.parseRest w.setFragment (s ++ 58 :: rest) = .ok u →
      url.Parse w.parseRest w.setFragment (ToLower s ++ 58 :: rest) = .ok u ∧
      Open w (s ++ 58 :: rest) = Open w (ToLower s ++ 58 :: rest)) ∧
    (∀ e, url.Parse w.parseRest w.setFragment (s ++ 58 :: rest) = .error e →
      Open w (s ++ 58 :: rest) = ⟨none, some (Error.url e), Sock.init⟩ ∧
      (e.URL = s ++ 58 :: rest.takeWhile (fun b => b ≠ 35) ∨ e.URL = s ++ 58 :: rest) ∧
      ∃ e1, url.Parse w.parseRest w.setFragment (ToLower s ++ 58 :: rest) = .error e1 ∧
        e1.Op = e.Op ∧ e1.Err = e.Err) := by
  have hex : ∃ l : GoString, (∀ b ∈ s, b ≠ 35) ∧ (∀ b ∈ l, b ≠ 35) ∧ ToLower s = l ∧
      httpScheme l ≠ none ∧
      (∀ x, url.parse w.parseRest (s ++ 58 :: x) = url.parse w.parseRest (l ++ 58 :: x)) ∧
      (∀ x u0, url.parse w.parseRest (l ++ 58 :: x) = .ok u0 → u0.Scheme = l) := by
    rcases h with h | h
    · exact ⟨str "ws", caseVariant_ws_no_hash s h, by decide,
        (ToLower_eq_iff s (str "ws") (by decide)).2 h, by decide,
        fun x => parse_scheme_case w.parseRest s x h,
        fun x u0 hu => parse_ws_scheme w.parseRest x u0 hu⟩
    · exact ⟨str "wss", caseVariant_wss_no_hash s h, by decide,
        (ToLower_eq_iff s (str "wss") (by decide)).2 h, by decide,
        fun x => parse_scheme_case_wss w.parseRest s x h,
        fun x u0 hu => parse_wss_scheme w.parseRest x u0 hu⟩
  obtain ⟨l, hs, hl, hlow, hacc, hp, hsch⟩ := hex
  have hP := Parse_of_parse_eq w.parseRest w.setFragment s l rest hs hl hp
  rw [hlow]
  refine ⟨fun t => ?_, fun u hu => ⟨hP.1 u hu, Open_eq_of_Parse_ok w _ _ u hu (hP.1 u hu)⟩,
    fun e he => ⟨?_, hP.2 e he⟩⟩
  · apply Open_err_ne_unsupported
    intro uri0 hu
    obtain ⟨u0, hu0, hs0⟩ := Parse_Scheme w.parseRest w.setFragment s rest hs uri0 hu
    rw [hp] at hu0
    rw [hs0, hsch _ _ hu0]
    exact hacc
  · simp only [Open, OpenWith, he]

set_option maxRecDepth 1000000 in
theorem Open_scheme_case_insensitive_witness :
    Open sampleWorld (str "Wss" ++ 58 :: str "//host:443/path")
      = Open sampleWorld (ToLower (str "Wss") ++ 58 :: str "//host:443/path") ∧
    (Open sampleWorld (str "Wss" ++ 58 :: str "//host:443/path")).err
      ≠ some (Error.New (str "websocket: unsupported protocol " ++ str "Wss")) ∧
    Open sampleWorld (str "WS" ++ 58 :: (str "//host:80" ++ [127]))
      = ⟨none,
          some (Error.url ⟨str "parse", str "WS://host:80" ++ [127],
            str "net/url: invalid control character in URL"⟩),
          Sock.init⟩ :=
  ⟨((Open_scheme_case_insensitive sampleWorld (str "Wss") (str "//host:443/path")
      (Or.inr (by decide))).2.1 ⟨str "wss", str "host:443", str "//host:443/path", []⟩
      (by decide)).2,
    (Open_scheme_case_insensitive sampleWorld (str "Wss") (str "//host:443/path")
      (Or.inr (by decide))).1 (str "Wss"),
    ((Open_scheme_case_insensitive sampleWorld (str "WS") (str "//host:80" ++ [127])
      (Or.inl (by decide))).2.2 ⟨str "parse", str "WS://host:80" ++ [127],
        str "net/url: invalid control character in URL"⟩ (by decide)).1⟩


/-! ## The request (C9) -/

/-- Unfolding of `OpenWith` on a run that reads a response. -/
theorem OpenWith_of_reads (c : GoString) (w : World) (address : GoString) (uri0 : url.URL)
    (scheme guid : GoString) (conn : Nat) (b : List Nat) (rr : Response)
    (hp : Prepares w address uri0 scheme guid) (h5 : w.Dial (str "tcp") uri0.Host = .ok conn)
    (h6 : w.DumpRequestOut (requestWith c uri0 scheme guid) = .ok b)
    (h7 : w.Write conn b = none)
    (h8 : w.ReadResponse conn (requestWith c uri0 scheme guid) = .ok rr) :
    OpenWith c w address =
      if rr.StatusCode ≠ 101 then
        ⟨none, some (Error.New (str "websocket: client did not receive 101 status response")),
          ((Sock.init.dial conn).Write b).Close⟩
      else
        match validateServerHeadersWith c rr.Header (base64.EncodeToString guid) with
        | some err => ⟨none, some err, ((Sock.init.dial conn).Write b).Close⟩
        | none => ⟨some (newWebSocket conn true), none, (Sock.init.dial conn).Write b⟩ := by
  obtain ⟨h1, h2, h3, h4⟩ := hp
  simp only [httpScheme] at h2
  simp only [requestWith, upgradeRequest] at h6 h8
  simp only [OpenWith, h1, h2]
  simp only [h3, h4, h5, h6, h7, h8]

/-- With `Upgrade`, capital, as the value of the constant, no response passes
the `Connection` check: the lower case of a text never starts with a capital. -/
theorem validateServerHeadersWith_Upgrade (hdr : Header) (K : GoString) :
    validateServerHeadersWith (str "Upgrade") hdr K ≠ none := by
  unfold validateServerHeadersWith
  split
  · simp
  · split
    · simp
    · rename_i h
      exact absurd (not_not.1 h) (ToLower_ne_capitalised_Upgrade _)

/-- With `Upgrade`, capital, as the value of the constant, `Open` returns no
connection. -/
theorem OpenWith_Upgrade (w : World) (address : GoString) :
    (OpenWith (str "Upgrade") w address).ws = none := by
  cases h1 : url.Parse w.parseRest w.setFragment address with
  | error e => simp [OpenWith, h1]
  | ok uri0 =>
    cases h2 : httpScheme uri0.Scheme with
    | none =>
      have h2b := h2
      simp only [httpScheme] at h2b
      simp [OpenWith, h1, h2b]
    | some scheme =>
      have h2b := h2
      simp only [httpScheme] at h2b
      cases h3 : w.NewRequest (str "GET") (url.URL.String { uri0 with Scheme := scheme }) with
      | some e => simp [OpenWith, h1, h2b, h3]
      | none =>
        cases h4 : w.GenerateV4 with
        | error e => simp [OpenWith, h1, h2b, h3, h4]
        | ok guid =>
          cases h5 : w.Dial (str "tcp") uri0.Host with
          | error e => simp [OpenWith, h1, h2b, h3, h4, h5]
          | ok conn =>
            cases h6 : w.DumpRequestOut (requestWith (str "Upgrade") uri0 scheme guid) with
            | error e =>
              simp only [requestWith, upgradeRequest] at h6
              simp [OpenWith, h1, h2b, h3, h4, h5, h6]
            | ok b =>
              cases h7 : w.Write conn b with
              | some e =>
                simp only [requestWith, upgradeRequest] at h6
                simp [OpenWith, h1, h2b, h3, h4, h5, h6, h7]
              | none =>
                cases h8 : w.ReadResponse conn (requestWith (str "Upgrade") uri0 scheme guid) with
                | error e =>
                  simp only [requestWith, upgradeRequest] at h6 h8
                  simp [OpenWith, h1, h2b, h3, h4, h5, h6, h7, h8]
                | ok rr =>
                  rw [OpenWith_of_reads (str "Upgrade") w address uri0 scheme guid conn b rr
                    ⟨h1, h2, h3, h4⟩ h5 h6 h7 h8]
                  split
                  · rfl
                  · split
                    · rfl
                    · rename_i hv
                      exact absurd hv (validateServerHeadersWith_Upgrade _ _)

/-- The header fields of the request in the order of the wire. -/
theorem Header.Write_upgradeRequest (c rawurl encKey : GoString) :
    Header.Write (upgradeRequest c rawurl encKey).Header
      = str "Connection: " ++ c ++ str "\r\n" ++
        str "Sec-Websocket-Key: " ++ encKey ++ str "\r\n" ++
        str "Sec-Websocket-Version: 13\r\n" ++
        str "Upgrade: websocket\r\n" := by
  have hk1 : CanonicalMIMEHeaderKey (str "Upgrade") = str "Upgrade" := by decide
  have hk2 : CanonicalMIMEHeaderKey (str "Connection") = str "Connection" := by decide
  have hk3 : CanonicalMIMEHeaderKey (str "Sec-WebSocket-Version") = str "Sec-Websocket-Version" := by
    decide
  have hk4 : CanonicalMIMEHeaderKey (str "Sec-WebSocket-Key") = str "Sec-Websocket-Key" := by
    decide
  have hne1 : str "Upgrade" ≠ str "Connection" := by decide
  have hne2 : str "Upgrade" ≠ str "Sec-Websocket-Version" := by decide
  have hne3 : str "Upgrade" ≠ str "Sec-Websocket-Key" := by decide
  have hne4 : str "Connection" ≠ str "Sec-Websocket-Version" := by decide
  have hne5 : str "Connection" ≠ str "Sec-Websocket-Key" := by decide
  have hne6 : str "Sec-Websocket-Version" ≠ str "Sec-Websocket-Key" := by decide
  have hl1 : keyLe (str "Connection") (str "Upgrade") = true := by decide
  have hl2 : keyLe (str "Sec-Websocket-Version") (str "Connection") = false := by decide
  have hl3 : keyLe (str "Sec-Websocket-Version") (str "Upgrade") = true := by decide
  have hl4 : keyLe (str "Sec-Websocket-Key") (str "Connection") = false := by decide
  have hl5 : keyLe (str "Sec-Websocket-Key") (str "Sec-Websocket-Version") = true := by decide
  have hv : internal.SecWebSocketVersionHeader = str "13" := rfl
  have hu : internal.UpgradeHeader = str "websocket" := rfl
  have e1 : str "Sec-Websocket-Version" ++ str ": " ++ str "13" ++ str "\r\n"
      = str "Sec-Websocket-Version: 13\r\n" := by decide
  have e2 : str "Upgrade" ++ str ": " ++ str "websocket" ++ str "\r\n"
      = str "Upgrade: websocket\r\n" := by decide
  have e3 : str "Connection" ++ str ": " = str "Connection: " := by decide
  have e4 : str "Sec-Websocket-Key" ++ str ": " = str "Sec-Websocket-Key: " := by decide
  simp only [upgradeRequest, Header.Set, hk1, hk2, hk3, hk4, List.filter, hv, hu]
  simp only [hne1, hne2, hne3, hne4, hne5, hne6, ne_eq, not_true_eq_false, not_false_eq_true,
    decide_True, decide_False, Header.Write, List.foldr, insertByKey, hl1, hl2, hl3, hl4, hl5,
    if_true, if_false, List.flatMap_cons, List.flatMap_nil, List.append_nil, e1, e2, e3, e4,
    Bool.false_eq_true]
  simp only [List.append_assoc]

set_option maxRecDepth 1000000 in
/-- C9 (as stated) fails. With `Upgrade`, capital, as the value of the
constant `internal.ConnectionHeader`, the bytes written for
`ws://host:80/chat` carry, besides the four fields of the request, the lines
`Host`, `User-Agent` and `Accept-Encoding` of the library, and the answer of a
conforming server is then refused with the connection-mismatch error, because
`validateServerHeaders` compares its lower-cased `Connection` value with the
same constant. The URL of the request for `ws://host:80/chat#` is
`http://host:80/chat`: the rest of the address is not unchanged. -/
theorem Open_request_not_as_stated :
    OpenWith (str "Upgrade") wireWorld (str "ws://host:80/chat")
      = ⟨none, some internal.ErrConnectionMismatch,
          ⟨SockState.closed, some 3, 1,
            [str ("GET /chat HTTP/1.1\r\nHost: host:80\r\nUser-Agent: Go-http-client/1.1\r\n" ++
              "Connection: Upgrade\r\nSec-Websocket-Key: dGhlIHNhbXBsZSBub25jZQ==\r\n" ++
              "Sec-Websocket-Version: 13\r\nUpgrade: websocket\r\n" ++
              "Accept-Encoding: gzip\r\n\r\n")]⟩⟩ ∧
    (OpenWith (str "Upgrade") sampleWorld (str "ws://host:80/chat#")).sock.written
      = [str "GET http://host:80/chat"] ∧
    str "http://host:80/chat" ≠ str "http" ++ str "://host:80/chat#" := by
  decide

/-- C9 (amended): on every run of `Open` that gets as far as the dial with a
16-byte nonce `n`, whatever the value `c` of the constant
`internal.ConnectionHeader` is, the request is a `GET` whose header fields are
exactly `Upgrade: websocket`, `Connection: c`, `Sec-WebSocket-Version: 13` and
`Sec-WebSocket-Key` equal to the standard base64 of `n`, which has 24
characters, decodes back to `n` and is a function of `n` alone; its URL is
the parsed address written out by `String` with the scheme `http` for `ws`
and `https` for `wss`, so an empty fragment is dropped. What is written to
the socket is the serialisation of this request by `DumpRequestOut`; in the
wire format it has the request line and the lines `Host`, `User-Agent`,
`Connection`, `Sec-Websocket-Key`, `Sec-Websocket-Version`, `Upgrade` and
`Accept-Encoding`. The same key is the one passed to `validateServerHeaders`,
which compares the lower-cased `Connection` value of the response with the
same `c`: on a run that returns a connection `c` is not `Upgrade`. -/
theorem Open_request (c : GoString) (w : World) (address : GoString) (uri0 : url.URL)
    (scheme n : GoString) (conn : Nat) (hp : Prepares w address uri0 scheme n)
    (hd : w.Dial (str "tcp") uri0.Host = .ok conn)
    (hn : n.length = 16) (hb : ∀ x ∈ n, x < 256) :
    (requestWith c uri0 scheme n).Method = str "GET" ∧
    (requestWith c uri0 scheme n).Header
      = [(str "Sec-Websocket-Key", [base64.EncodeToString n]),
          (str "Sec-Websocket-Version", [str "13"]),
          (str "Connection", [c]), (str "Upgrade", [str "websocket"])] ∧
    (base64.EncodeToString n).length = 24 ∧
    base64.DecodeString (base64.EncodeToString n) = .ok n ∧
    (requestWith c uri0 scheme n).URL
      = (if uri0.Scheme = str "ws" then str "http" else str "https") ++ 58 :: uri0.rest ++
          (if uri0.Fragment ≠ [] then 35 :: uri0.Fragment else []) ∧
    (∀ b, w.DumpRequestOut (requestWith c uri0 scheme n) = .ok b →
      (OpenWith c w address).sock.written = [b]) ∧
    (∀ requestURI host, w.DumpRequestOut (requestWith c uri0 scheme n)
        = .ok (wireFormat requestURI host (requestWith c uri0 scheme n)) →
      (OpenWith c w address).sock.written
        = [str "GET " ++ requestURI ++ str " HTTP/1.1\r\nHost: " ++ host ++
            str "\r\nUser-Agent: Go-http-client/1.1\r\nConnection: " ++ c ++
            str "\r\nSec-Websocket-Key: " ++ base64.EncodeToString n ++
            str "\r\nSec-Websocket-Version: 13\r\nUpgrade: websocket\r\nAccept-Encoding: gzip\r\n\r\n"]) ∧
    (∀ b rr, w.DumpRequestOut (requestWith c uri0 scheme n) = .ok b → w.Write conn b = none →
      w.ReadResponse conn (requestWith c uri0 scheme n) = .ok rr → rr.StatusCode = 101 →
      (OpenWith c w address).err
        = validateServerHeadersWith c rr.Header (base64.EncodeToString n)) ∧
    ((OpenWith c w address).ws ≠ none → c ≠ str "Upgrade") := by
  have hk1 : CanonicalMIMEHeaderKey (str "Upgrade") = str "Upgrade" := by decide
  have hk2 : CanonicalMIMEHeaderKey (str "Connection") = str "Connection" := by decide
  have hk3 : CanonicalMIMEHeaderKey (str "Sec-WebSocket-Version") = str "Sec-Websocket-Version" := by
    decide
  have hk4 : CanonicalMIMEHeaderKey (str "Sec-WebSocket-Key") = str "Sec-Websocket-Key" := by
    decide
  have hne1 : str "Upgrade" ≠ str "Connection" := by decide
  have hne2 : str "Upgrade" ≠ str "Sec-Websocket-Version" := by decide
  have hne3 : str "Upgrade" ≠ str "Sec-Websocket-Key" := by decide
  have hne4 : str "Connection" ≠ str "Sec-Websocket-Version" := by decide
  have hne5 : str "Connection" ≠ str "Sec-Websocket-Key" := by decide
  have hne6 : str "Sec-Websocket-Version" ≠ str "Sec-Websocket-Key" := by decide
  have hwritten : ∀ b, w.DumpRequestOut (requestWith c uri0 scheme n) = .ok b →
      (OpenWith c w address).sock.written = [b] := by
    intro b hD
    cases hW : w.Write conn b with
    | some e =>
      obtain ⟨h1, h2, h3, h4⟩ := hp
      simp only [httpScheme] at h2
      simp only [requestWith, upgradeRequest] at hD
      simp [OpenWith, h1, h2, h3, h4, hd, hD, hW, Sock.init, Sock.dial, Sock.Write, Sock.Close]
    | none =>
      cases hR : w.ReadResponse conn (requestWith c uri0 scheme n) with
      | error e =>
        obtain ⟨h1, h2, h3, h4⟩ := hp
        simp only [httpScheme] at h2
        simp only [requestWith, upgradeRequest] at hD hR
        simp [OpenWith, h1, h2, h3, h4, hd, hD, hW, hR, Sock.init, Sock.dial, Sock.Write,
          Sock.Close]
      | ok rr =>
        rw [OpenWith_of_reads c w address uri0 scheme n conn b rr hp hd hD hW hR]
        split
        · simp [Sock.init, Sock.dial, Sock.Write, Sock.Close]
        · split <;> simp [Sock.init, Sock.dial, Sock.Write, Sock.Close]
  refine ⟨rfl, ?_, ?_, base64.DecodeString_EncodeToString n hb, ?_, hwritten, ?_, ?_, ?_⟩
  · simp only [requestWith, upgradeRequest, Header.Set, hk1, hk2, hk3, hk4, List.filter,
      internal.UpgradeHeader, internal.SecWebSocketVersionHeader]
    simp [hne1, hne2, hne3, hne4, hne5, hne6]
  · rw [base64.EncodeToString_length, hn]
  · rcases httpScheme_eq _ _ hp.2.1 with ⟨h1, rfl⟩ | ⟨h1, rfl⟩
    · simp [requestWith, upgradeRequest, url.URL.String, h1, str]
    · have h2 : uri0.Scheme ≠ str "ws" := by rw [h1]; decide
      rw [if_neg h2]
      simp [requestWith, upgradeRequest, url.URL.String, str]
  · intro requestURI host hD
    rw [hwritten _ hD]
    simp only [wireFormat, requestWith, Header.Write_upgradeRequest]
    simp [upgradeRequest, str]
  · intro b rr hD hW hR hS
    rw [OpenWith_of_reads c w address uri0 scheme n conn b rr hp hd hD hW hR]
    simp only [hS, ne_eq, not_true_eq_false, if_false]
    split
    · rename_i e he; simp [he]
    · rename_i he; simp [he]
  · intro hws hc
    rw [hc] at hws
    exact hws (OpenWith_Upgrade w address)

set_option maxRecDepth 1000000 in
theorem Open_request_witness :
    (Open wireWorld (str "ws://host:80/chat")).sock.written
      = [str "GET " ++ str "/chat" ++ str " HTTP/1.1\r\nHost: " ++ str "host:80" ++
          str "\r\nUser-Agent: Go-http-client/1.1\r\nConnection: " ++ str "upgrade" ++
          str "\r\nSec-Websocket-Key: " ++ base64.EncodeToString (str "the sample nonce") ++
          str "\r\nSec-Websocket-Version: 13\r\nUpgrade: websocket\r\nAccept-Encoding: gzip\r\n\r\n"] :=
  (Open_request (str "upgrade") wireWorld (str "ws://host:80/chat")
    ⟨str "ws", str "host:80", str "//host:80/chat", []⟩
    (str "http") (str "the sample nonce") 3 ⟨by decide, by decide, rfl, rfl⟩ (by decide) (by decide)
    (by decide)).2.2.2.2.2.2.1 (str "/chat") (str "host:80") (by decide)


/-! ## The example client -/

/-- The default address of the example client, `ws://echo.websocket.org`,
names no port. `Open` dials the host as parsed and adds no port, so the dial
is refused and no connection is returned. -/
theorem Open_example_default_address :
    Open sampleWorld (str "ws://echo.websocket.org")
      = ⟨none,
          some (Error.lib
            (str "dial tcp: address echo.websocket.org: missing port in address")),
          Sock.init⟩ := by
  decide

end Wsocket
